import Mathlib

/-!
Verification of the es-interpreter repository (a sandboxed ES5 interpreter in
TypeScript, derived from JS-Interpreter).

This file gives a shallow embedding of the data model and the operations that
the verified claims are about:

* the JS value universe as seen by the host code of the interpreter
  (`JSValue`): primitives, `InterpreterObject` instances (the interpreted
  world), and other host objects (`HostObj`);
* the property protocol (`getProperty`, `setProperty`, `hasProperty`) of
  `src/interpreter.ts`, including the Array length magic, `String`-box
  special cases, descriptors and accessor maps;
* the scope chain (`getValueFromScope`, `setValueToScope`);
* the host bridge (`nativeToPseudo`, `pseudoToNative`, `populateRegExp`,
  `createNativeFunction`, `createArray`, `createObjectProto`);
* a small state-stack machine covering `step`, `stepProgram`,
  `stepExpressionStatement` and `stepLiteral`, and the completion branch of
  `stepCallExpression`.

Modelling conventions:

* Interpreted objects are modelled as trees: a reference to an object is a
  copy of the object.  All the operations verified here either create fresh
  objects or mutate only the receiver, so no claim depends on aliasing.
  Heap identity (JS `===` on objects) is modelled by an optional `tag`
  carried by the distinguished singleton objects (the built-in prototypes
  and the `Array` constructor); freshly created objects carry no tag and are
  never compared by identity in the modelled flows.
* JS numbers are modelled as exact rationals plus NaN and the two
  infinities.  Every double is an exact rational, and the operations used by
  the claims (`>>> 0` on integers, comparisons, `Math.max`) are exact on
  them, so no floating-point rounding arises in the verified statements.
* Functions that throw use `Except`; `Thrown.interp` is an interpreted
  exception raised through `throwException` (which unwinds and then throws
  the `STEP_ERROR` sentinel), and `Thrown.host` is a genuine host-side
  exception (`throw Error(...)` / a crash of the host runtime).
* `pseudoToNative`, `nativeToPseudo` and the display function recurse
  through property lookups, which is not syntactically structural; they take
  an explicit fuel argument.  Theorems require the fuel to dominate the
  `sizeOf` of the traversed value, which always holds for real calls.
-/

namespace ESInterpreter

/-- The JS number universe: NaN, the two infinities, and finite doubles
(modelled as exact rationals). -/
inductive JsNum where
  | nan : JsNum
  | posInf : JsNum
  | negInf : JsNum
  | rat (q : ℚ) : JsNum
  deriving DecidableEq, Repr

/-- Truncation toward zero, the integer part used by the abstract `ToUint32`
operation of ES5 9.6. -/
def jsTrunc (q : ℚ) : ℤ :=
  if 0 ≤ q then ⌊q⌋ else -⌊-q⌋

/-- ES5 `ToUint32` restricted to numbers, as performed by `x >>> 0`:
NaN and the infinities go to 0, finite numbers are truncated toward zero and
reduced modulo 2^32. -/
def toUint32 (x : JsNum) : ℕ :=
  match x with
  | .rat q => ((jsTrunc q) % 4294967296).toNat
  | _ => 0

/-- Model of the source helper `legalArrayLength` for a numeric argument:
`const n = x >>> 0; return (n === Number(x)) ? n : NaN;`.  `some n` plays the
role of the number `n` and `none` plays the role of `NaN`. -/
def legalArrayLengthNum (x : JsNum) : Option ℕ :=
  match x with
  | .rat q => if ((toUint32 (.rat q) : ℚ) = q) then some (toUint32 (.rat q)) else none
  | _ => none

/-- Little-endian decimal digits of `n`, computed with explicit fuel so that
the definition reduces inside the kernel (`Nat.digits` of Mathlib is
well-founded and does not); `natDigitsAux n n` equals `Nat.digits 10 n`. -/
def natDigitsAux : ℕ → ℕ → List ℕ
  | 0, _ => []
  | _ + 1, 0 => []
  | fuel + 1, n + 1 => ((n + 1) % 10) :: natDigitsAux fuel ((n + 1) / 10)

/-- Canonical decimal rendering of a natural number, the model of the host
`String(n)` conversion for the non-negative integers used as property keys. -/
def natToStr (n : ℕ) : String :=
  if n = 0 then "0"
  else String.mk (((natDigitsAux n n).reverse).map (fun d => Char.ofNat (48 + d)))

/-- Parse a list of decimal digit characters (most significant first); `none`
if the list is empty or contains a non-digit. -/
def parseDigits : List Char → Option ℕ
  | [] => none
  | c :: cs =>
    if (c :: cs).all (fun ch => 48 ≤ ch.toNat ∧ ch.toNat ≤ 57) then
      some ((c :: cs).foldl (fun a ch => 10 * a + (ch.toNat - 48)) 0)
    else none

/-- Model of the source helper `legalArrayIndex` applied to a property-key
string: `const n = x >>> 0; return (String(n) === String(x) && n !== 0xffffffff) ? n : NaN;`.
For strings this succeeds exactly on the canonical decimal rendering of a
natural number below 2^32 - 1. -/
def legalArrayIndex (s : String) : Option ℕ :=
  match parseDigits s.data with
  | some n => if natToStr n = s ∧ n < 4294967295 then some n else none
  | none => none

/-- The backing `data` slot of an interpreted object: a host regular
expression, a host date, or a boxed primitive. -/
inductive ObjData where
  | regexp (source : String) (flags : String) (lastIndex : JsNum)
  | date (ms : JsNum)
  | boxedString (s : String)
  | boxedNumber (n : JsNum)
  | boxedBoolean (b : Bool)
  deriving DecidableEq, Repr

mutual
/-- A JS value as seen by the host code of the interpreter: a primitive, an
`InterpreterObject` instance (interpreted world), or another host object. -/
inductive JSValue where
  | undefined : JSValue
  | jsNull : JSValue
  | boolean (b : Bool) : JSValue
  | number (n : JsNum) : JSValue
  | string (s : String) : JSValue
  | iobj (o : InterpreterObject) : JSValue
  | hobj (h : HostObj) : JSValue

/-- The interpreted-world object of `src/object.ts`: a `properties` map with
per-key attributes, `getter`/`setter` maps, a prototype link, a class tag, the
`preventExtensions`/`illegalConstructor` flags, an optional `data` slot, and
an optional native-function payload.  The extra `tag` field models host heap
identity for the distinguished singleton objects built once by `initGlobal`. -/
inductive InterpreterObject where
  | mk (tag : Option ℕ) (cls : Option String)
      (properties : List (String × PropAttr))
      (getter : List (String × JSValue))
      (setter : List (String × JSValue))
      (proto : Option InterpreterObject)
      (preventExtensions : Bool)
      (illegalConstructor : Bool)
      (data : Option ObjData)
      (nativeFuncId : Option ℕ) : InterpreterObject

/-- One slot of the host map backing `obj.properties`: the stored value and
the host property attributes.  `isAccessor` marks slots installed through
`Object.defineProperty` with the placeholder get/set functions. -/
inductive PropAttr where
  | mk (value : JSValue) (writable : Bool) (enumerable : Bool)
      (configurable : Bool) (isAccessor : Bool) : PropAttr

/-- A host object that is not an `InterpreterObject`: regular expressions,
dates, functions, arrays (with possible holes) and plain objects. -/
inductive HostObj where
  | regexp (source : String) (flags : String) (lastIndex : JsNum)
  | date (ms : JsNum)
  | func (id : ℕ) (fname : String) (argCount : ℕ) (hasPrototypeProp : Bool)
  | array (elems : List (Option JSValue))
  | plain (fields : List (String × JSValue))
end

namespace PropAttr

/-- The stored value of a property slot. -/
def value : PropAttr → JSValue
  | .mk v _ _ _ _ => v

/-- The host `writable` attribute of a property slot. -/
def writable : PropAttr → Bool
  | .mk _ w _ _ _ => w

/-- The host `enumerable` attribute of a property slot. -/
def enumerable : PropAttr → Bool
  | .mk _ _ e _ _ => e

/-- The host `configurable` attribute of a property slot. -/
def configurable : PropAttr → Bool
  | .mk _ _ _ c _ => c

/-- Whether the slot is an accessor slot (placeholder getter/setter). -/
def isAccessor : PropAttr → Bool
  | .mk _ _ _ _ a => a

/-- An ordinary data slot as created by plain host assignment:
writable, enumerable and configurable. -/
def plain (v : JSValue) : PropAttr := .mk v true true true false

end PropAttr

namespace InterpreterObject

/-- The identity tag (modelling host heap identity of singletons). -/
def tag : InterpreterObject → Option ℕ
  | .mk t _ _ _ _ _ _ _ _ _ => t

/-- The internal class slot. -/
def cls : InterpreterObject → Option String
  | .mk _ c _ _ _ _ _ _ _ _ => c

/-- The `properties` map. -/
def properties : InterpreterObject → List (String × PropAttr)
  | .mk _ _ p _ _ _ _ _ _ _ => p

/-- The `getter` map. -/
def getter : InterpreterObject → List (String × JSValue)
  | .mk _ _ _ g _ _ _ _ _ _ => g

/-- The `setter` map. -/
def setter : InterpreterObject → List (String × JSValue)
  | .mk _ _ _ _ s _ _ _ _ _ => s

/-- The prototype link. -/
def proto : InterpreterObject → Option InterpreterObject
  | .mk _ _ _ _ _ p _ _ _ _ => p

/-- The `preventExtensions` flag. -/
def preventExtensions : InterpreterObject → Bool
  | .mk _ _ _ _ _ _ pe _ _ _ => pe

/-- The `illegalConstructor` flag. -/
def illegalConstructor : InterpreterObject → Bool
  | .mk _ _ _ _ _ _ _ ic _ _ => ic

/-- The backing `data` slot. -/
def data : InterpreterObject → Option ObjData
  | .mk _ _ _ _ _ _ _ _ d _ => d

/-- The native-function payload (stable id), if any. -/
def nativeFuncId : InterpreterObject → Option ℕ
  | .mk _ _ _ _ _ _ _ _ _ nf => nf

/-- Replace the `properties` map. -/
def withProperties (o : InterpreterObject) (p : List (String × PropAttr)) : InterpreterObject :=
  match o with
  | .mk t c _ g s pr pe ic d nf => .mk t c p g s pr pe ic d nf

/-- Replace the `getter` map. -/
def withGetter (o : InterpreterObject) (g : List (String × JSValue)) : InterpreterObject :=
  match o with
  | .mk t c p _ s pr pe ic d nf => .mk t c p g s pr pe ic d nf

/-- Replace the `setter` map. -/
def withSetter (o : InterpreterObject) (s : List (String × JSValue)) : InterpreterObject :=
  match o with
  | .mk t c p g _ pr pe ic d nf => .mk t c p g s pr pe ic d nf

/-- Replace the class slot. -/
def withCls (o : InterpreterObject) (c : Option String) : InterpreterObject :=
  match o with
  | .mk t _ p g s pr pe ic d nf => .mk t c p g s pr pe ic d nf

/-- Replace the `data` slot. -/
def withData (o : InterpreterObject) (d : Option ObjData) : InterpreterObject :=
  match o with
  | .mk t c p g s pr pe ic _ nf => .mk t c p g s pr pe ic d nf

/-- Replace the native-function payload. -/
def withNativeFuncId (o : InterpreterObject) (nf : Option ℕ) : InterpreterObject :=
  match o with
  | .mk t c p g s pr pe ic d _ => .mk t c p g s pr pe ic d nf

/-- Set the `illegalConstructor` flag. -/
def withIllegalConstructor (o : InterpreterObject) (ic : Bool) : InterpreterObject :=
  match o with
  | .mk t c p g s pr pe _ d nf => .mk t c p g s pr pe ic d nf

end InterpreterObject

/-- Host reference identity (`===`) between interpreted objects, decided
through the singleton tags: the distinguished objects carry distinct tags and
untagged (fresh) objects are never compared by identity in the modelled
flows. -/
def objSame (a b : InterpreterObject) : Bool :=
  match a.tag, b.tag with
  | some i, some j => i == j
  | _, _ => false

/-- The interpreted error classes of the source (`this.TYPE_ERROR`,
`this.RANGE_ERROR`, ...), used as the first argument of `throwException`. -/
inductive ErrClass where
  | error
  | evalError
  | rangeError
  | referenceError
  | syntaxError
  | typeError
  | uriError
  deriving DecidableEq, Repr

/-- An interpreted exception (`throwException`, which allocates an error
object, unwinds with THROW and then throws the swallowed `STEP_ERROR`
sentinel) or a genuine host-side exception (`throw Error(...)`). -/
inductive Thrown where
  | interp (cls : ErrClass) (msg : String)
  | host (msg : String)
  deriving DecidableEq, Repr

/-- The distinguished singleton objects built once by `initGlobal` that the
modelled operations compare against or hang fresh objects from:
`this.OBJECT_PROTO`, `this.FUNCTION_PROTO`, ..., and the `Array` constructor
object `this.ARRAY`.  In the interpreter these are `this.X` fields; here
they are a parameter of every operation. -/
structure InterpCtx where
  OBJECT_PROTO : InterpreterObject
  FUNCTION_PROTO : InterpreterObject
  ARRAY_PROTO : InterpreterObject
  STRING_PROTO : InterpreterObject
  NUMBER_PROTO : InterpreterObject
  BOOLEAN_PROTO : InterpreterObject
  REGEXP_PROTO : InterpreterObject
  DATE_PROTO : InterpreterObject
  ERROR_PROTO : InterpreterObject
  ARRAY_FUNC : InterpreterObject

/-- Model of `getPrototype`: primitives map to the boxed prototypes, objects
to their `proto` link, falsy values to null.  Host objects other than
`InterpreterObject` have no `proto` field; the source would read `undefined`,
modelled as `none`. -/
def getPrototype (ctx : InterpCtx) : JSValue → Option InterpreterObject
  | .number _ => some ctx.NUMBER_PROTO
  | .boolean _ => some ctx.BOOLEAN_PROTO
  | .string _ => some ctx.STRING_PROTO
  | .iobj o => o.proto
  | _ => none

/-- Walk from an object up its prototype links looking for `target` by host
identity (the `while (child) { if (child === proto) ... child = child.proto }`
loop of `isa`). -/
def protoChainContainsObj (target : InterpreterObject) : InterpreterObject → Bool
  | .mk t c p g s none pe ic d nf =>
    objSame (.mk t c p g s none pe ic d nf) target
  | .mk t c p g s (some pr) pe ic d nf =>
    objSame (.mk t c p g s (some pr) pe ic d nf) target || protoChainContainsObj target pr
termination_by structural x => x

/-- `protoChainContainsObj` lifted to a possibly-null starting object. -/
def protoChainContains (target : InterpreterObject) : Option InterpreterObject → Bool
  | none => false
  | some o => protoChainContainsObj target o

/-- Model of `isa(child, constructor)`, with `proto` standing for
`constructor.properties['prototype']` (the callers always pass one of the
`this.X` constructors, whose prototype is the corresponding singleton). -/
def isa (ctx : InterpCtx) (child : JSValue) (proto : InterpreterObject) : Bool :=
  match child with
  | .jsNull => false
  | .undefined => false
  | c =>
    (match c with
     | .iobj o => objSame o proto
     | _ => false) || protoChainContains proto (getPrototype ctx c)

/-- Host `typeof` on the values flowing through the interpreter:
`InterpreterObject` instances are plain host objects (`"object"`), and
`null` is famously `"object"` as well. -/
def jsTypeof : JSValue → String
  | .undefined => "undefined"
  | .jsNull => "object"
  | .boolean _ => "boolean"
  | .number _ => "number"
  | .string _ => "string"
  | .iobj _ => "object"
  | .hobj (.func _ _ _ _) => "function"
  | .hobj _ => "object"

/-- Host truthiness. -/
def jsTruthy : JSValue → Bool
  | .undefined => false
  | .jsNull => false
  | .boolean b => b
  | .number .nan => false
  | .number (.rat q) => q != 0
  | .number _ => true
  | .string s => s != ""
  | _ => true

/-- Host `String(n)` for a number.  Exact for NaN, the infinities and
integers of ordinary magnitude; non-integer formatting (decimal expansion,
exponent notation beyond 1e21) is approximated — no verified claim displays
a non-integer number. -/
def jsNumToString : JsNum → String
  | .nan => "NaN"
  | .posInf => "Infinity"
  | .negInf => "-Infinity"
  | .rat q =>
    if q.den = 1 then
      (if q.num < 0 then "-" ++ natToStr q.num.natAbs else natToStr q.num.natAbs)
    else "[number " ++ natToStr q.num.natAbs ++ "/" ++ natToStr q.den ++ "]"

/-- The characters `ToNumber` strips around a string numeric literal: the
`WhiteSpace` production (TAB, VT, FF, SP, NBSP, BOM and the Unicode `Zs`
spaces) together with the line terminators (LF, CR, LS, PS). -/
def isStrWhite (c : Char) : Bool :=
  c.toNat == 9 || c.toNat == 10 || c.toNat == 11 || c.toNat == 12 || c.toNat == 13 ||
  c.toNat == 32 || c.toNat == 160 || c.toNat == 5760 ||
  (8192 ≤ c.toNat && c.toNat ≤ 8202) ||
  c.toNat == 8232 || c.toNat == 8233 || c.toNat == 8239 || c.toNat == 8287 ||
  c.toNat == 12288 || c.toNat == 65279

/-- Decimal digit test. -/
def isDigitCh (c : Char) : Bool := 48 ≤ c.toNat && c.toNat ≤ 57

/-- Hexadecimal digit test. -/
def isHexCh (c : Char) : Bool :=
  isDigitCh c || (65 ≤ c.toNat && c.toNat ≤ 70) || (97 ≤ c.toNat && c.toNat ≤ 102)

/-- Value of one hexadecimal digit. -/
def hexVal (c : Char) : ℕ :=
  if c.toNat ≤ 57 then c.toNat - 48
  else if c.toNat ≤ 70 then c.toNat - 55
  else c.toNat - 87

/-- Decimal digits (most significant first) to the number they denote. -/
def digitsVal (l : List Char) : ℕ := l.foldl (fun a c => 10 * a + (c.toNat - 48)) 0

/-- Hexadecimal digits (most significant first) to the number they denote. -/
def hexDigitsVal (l : List Char) : ℕ := l.foldl (fun a c => 16 * a + hexVal c) 0

/-- The `ExponentPart` of a string decimal literal, which must consume the
whole remainder: empty is exponent 0; otherwise `e`/`E`, an optional sign
and at least one digit. -/
def parseExpPart : List Char → Option ℤ
  | [] => some 0
  | c :: rest =>
    if c == 'e' || c == 'E' then
      match rest with
      | '+' :: ds => if !ds.isEmpty && ds.all isDigitCh then some (digitsVal ds) else none
      | '-' :: ds => if !ds.isEmpty && ds.all isDigitCh then some (-(digitsVal ds : ℤ)) else none
      | ds => if !ds.isEmpty && ds.all isDigitCh then some (digitsVal ds) else none
    else none

/-- `StrUnsignedDecimalLiteral`: `Infinity`, or decimal digits with an
optional fraction and exponent, or a bare fraction with an optional
exponent; the whole list must be consumed, else `none`. -/
def parseUnsignedDec (l : List Char) : Option JsNum :=
  if l == "Infinity".data then some .posInf
  else
    let ip := l.takeWhile isDigitCh
    let rest := l.drop ip.length
    match rest with
    | '.' :: rest2 =>
      let fp := rest2.takeWhile isDigitCh
      let rest3 := rest2.drop fp.length
      if ip.isEmpty && fp.isEmpty then none
      else
        match parseExpPart rest3 with
        | some e => some (.rat
            (((digitsVal ip : ℚ) + (digitsVal fp : ℚ) / ((10 : ℚ) ^ fp.length)) * (10 : ℚ) ^ e))
        | none => none
    | _ =>
      if ip.isEmpty then none
      else
        match parseExpPart rest with
        | some e => some (.rat ((digitsVal ip : ℚ) * (10 : ℚ) ^ e))
        | none => none

/-- Negation of a parsed unsigned literal value (for a leading `-`). -/
def negJsNum : JsNum → JsNum
  | .nan => .nan
  | .posInf => .negInf
  | .negInf => .posInf
  | .rat q => .rat (-q)

/-- Host `Number(s)` for a string: the `StrNumericLiteral` grammar of ES5 —
surrounding whitespace is stripped, an empty remainder is 0, then an
unsigned hex literal or a signed decimal/`Infinity` literal; anything else
is NaN.  Values are kept as exact rationals (the ℚ-for-double convention of
this model: a literal beyond binary64 precision stays exact instead of
rounding). -/
def stringToNum (s : String) : JsNum :=
  match ((s.data.dropWhile isStrWhite).reverse.dropWhile isStrWhite).reverse with
  | [] => .rat 0
  | '0' :: 'x' :: ds => if !ds.isEmpty && ds.all isHexCh then .rat (hexDigitsVal ds) else .nan
  | '0' :: 'X' :: ds => if !ds.isEmpty && ds.all isHexCh then .rat (hexDigitsVal ds) else .nan
  | '+' :: rest =>
    (match parseUnsignedDec rest with
     | some n => n
     | none => .nan)
  | '-' :: rest =>
    (match parseUnsignedDec rest with
     | some n => negJsNum n
     | none => .nan)
  | rest =>
    (match parseUnsignedDec rest with
     | some n => n
     | none => .nan)

/-- Host `ToNumber` on interpreter values.  For interpreted objects this
goes through `InterpreterObject.valueOf`, which unwraps boxed primitives and
dates; other objects fall back to their string form, approximated by NaN
(exact for plain objects, whose `'[object Object]'` is NaN). -/
def jsToNumber : JSValue → JsNum
  | .undefined => .nan
  | .jsNull => .rat 0
  | .boolean b => if b then .rat 1 else .rat 0
  | .number n => n
  | .string s => stringToNum s
  | .iobj o =>
    match o.data with
    | some (.boxedNumber n) => n
    | some (.boxedBoolean b) => if b then .rat 1 else .rat 0
    | some (.boxedString s) => stringToNum s
    | some (.date ms) => ms
    | _ => .nan
  | .hobj _ => .nan

/-- Host `Math.max` on two numbers. -/
def jsMax (a b : JsNum) : JsNum :=
  match a, b with
  | .nan, _ => .nan
  | _, .nan => .nan
  | .posInf, _ => .posInf
  | _, .posInf => .posInf
  | .negInf, x => x
  | x, .negInf => x
  | .rat p, .rat q => .rat (max p q)

/-- Host `<` on two numbers (false whenever either side is NaN). -/
def jsLtNum : JsNum → JsNum → Bool
  | .nan, _ => false
  | _, .nan => false
  | .negInf, .negInf => false
  | .negInf, _ => true
  | _, .negInf => false
  | .posInf, _ => false
  | .rat _, .posInf => true
  | .rat p, .rat q => decide (p < q)

/-- Number of iterations of a host loop `for (let i = 0; i < len; i++)`.
NaN and negative bounds give zero iterations; an infinite bound would hang
the host and is also mapped to zero (never reached by a verified claim). -/
def loopCount : JsNum → ℕ
  | .rat q => (⌈q⌉).toNat
  | _ => 0

/-- Association-list lookup on the string-keyed maps of this model (the
backing host maps are null-prototype objects, so plain own-key access). -/
def alookup {α : Type} : List (String × α) → String → Option α
  | [], _ => none
  | (k, v) :: t, key => if key = k then some v else alookup t key

/-- Raw chain lookup of a property value, as done by
`InterpreterObject.toString` for the `name`/`message` of an error (the
source comments that this path does not support getters). -/
def chainLookupObj (name : String) : InterpreterObject → JSValue
  | .mk _ _ p _ _ none _ _ _ _ =>
    (match alookup p name with
     | some a => a.value
     | none => .undefined)
  | .mk _ _ p _ _ (some pr) _ _ _ _ =>
    (match alookup p name with
     | some a => a.value
     | none => chainLookupObj name pr)
termination_by structural x => x

mutual
/-- Structure size of a value: a computable measure that dominates the
recursion depth of every traversal in this file; used to supply fuel. -/
def jsSize : JSValue → ℕ
  | .undefined => 1
  | .jsNull => 1
  | .boolean _ => 1
  | .number _ => 1
  | .string _ => 1
  | .iobj o => objSize o + 1
  | .hobj h => hostSize h + 1
termination_by structural x => x

/-- Structure size of an interpreted object. -/
def objSize : InterpreterObject → ℕ
  | .mk _ _ p g s none _ _ _ _ =>
    propListSize p + valListSize g + valListSize s + 1
  | .mk _ _ p g s (some pr) _ _ _ _ =>
    propListSize p + valListSize g + valListSize s + objSize pr + 2
termination_by structural x => x

/-- Structure size of a `properties` map. -/
def propListSize : List (String × PropAttr) → ℕ
  | [] => 0
  | (_, a) :: r => attrSize a + propListSize r + 1
termination_by structural x => x

/-- Structure size of one property slot. -/
def attrSize : PropAttr → ℕ
  | .mk v _ _ _ _ => jsSize v + 1
termination_by structural x => x

/-- Structure size of a getter/setter map or a host field list. -/
def valListSize : List (String × JSValue) → ℕ
  | [] => 0
  | (_, v) :: r => jsSize v + valListSize r + 1
termination_by structural x => x

/-- Structure size of a host object. -/
def hostSize : HostObj → ℕ
  | .array es => optListSize es + 1
  | .plain fs => valListSize fs + 1
  | _ => 1
termination_by structural x => x

/-- Structure size of a host array's element list. -/
def optListSize : List (Option JSValue) → ℕ
  | [] => 0
  | none :: r => optListSize r + 1
  | some v :: r => jsSize v + optListSize r + 1
termination_by structural x => x
end


mutual
/-- Host `String(v)` with explicit fuel, following
`InterpreterObject.toString` of `src/object.ts` for interpreted objects:
Array join (with the 1024-element truncation), Error name/message,
`data`-backed objects, then the `[object Class]` fallback.  The cycle check
of the source can never fire on tree-modelled values and is omitted.  Fuel
only limits the recursion depth; `jsDisplayFull` below supplies a
dominating fuel. -/
def jsDisplay : ℕ → JSValue → String
  | _, .undefined => "undefined"
  | _, .jsNull => "null"
  | _, .boolean b => if b then "true" else "false"
  | _, .number n => jsNumToString n
  | _, .string s => s
  | _, .hobj _ => "[object Object]"
  | 0, .iobj _ => ""
  | fuel + 1, .iobj o =>
    if o.cls == some "Array" then
      let lenVal := (((alookup o.properties "length").map PropAttr.value).getD .undefined)
      let len := loopCount (jsToNumber lenVal)
      let maxLength := if 1024 < len then 1000 else len
      let strs := arrJoinParts fuel o.properties maxLength 0
      let strs := if 1024 < len then strs ++ ["..."] else strs
      String.intercalate "," strs
    else if o.cls == some "Error" then
      let nameV := chainLookupObj "name" o
      let msgV := chainLookupObj "message" o
      let nameS : JSValue := if jsTruthy nameV then .string (jsDisplay fuel nameV) else nameV
      let msgS : JSValue := if jsTruthy msgV then .string (jsDisplay fuel msgV) else msgV
      if jsTruthy msgS then jsDisplay fuel nameS ++ ": " ++ jsDisplay fuel msgS
      else jsDisplay fuel nameS
    else
      match o.data with
      | some (.regexp source flags _) => "/" ++ source ++ "/" ++ flags
      | some (.date ms) => "[Date " ++ jsNumToString ms ++ "]"
      | some (.boxedString s) => s
      | some (.boxedNumber n) => jsNumToString n
      | some (.boxedBoolean b) => if b then "true" else "false"
      | none => "[object " ++ (o.cls.getD "undefined") ++ "]"
termination_by structural fuel _ => fuel

/-- The element strings of the Array join of `InterpreterObject.toString`:
positions `i` below the capped length are read raw (a missing entry is
undefined), and the join coercion renders undefined and null as empty
strings. -/
def arrJoinParts : ℕ → List (String × PropAttr) → ℕ → ℕ → List String
  | _, _, 0, _ => []
  | 0, _, _ + 1, _ => []
  | fuel + 1, props, rem + 1, i =>
    (match (((alookup props (natToStr i)).map PropAttr.value).getD .undefined) with
     | .undefined => ""
     | .jsNull => ""
     | w => jsDisplay fuel w) :: arrJoinParts fuel props rem (i + 1)
termination_by structural fuel _ _ _ => fuel
end

/-- Host `String(v)` with a fuel that dominates the rendering recursion:
each level consumes at most 1026 units (the Array join is capped at 1024
positions) and the nesting depth is below `jsSize v`. -/
def jsDisplayFull (v : JSValue) : String :=
  jsDisplay ((jsSize v + 2) * 1026) v

/-- First character below code point 0x40 (the fast pre-check of
`getProperty` before trying a string index; `charCodeAt` of an empty string
is NaN, which fails the comparison). -/
def firstCharBelow64 (s : String) : Bool :=
  match s.data with
  | [] => false
  | ch :: _ => ch.toNat < 64

/-- The single character `String(obj)[n]` as a one-character string
(modelled over code points; the UTF-16 distinction never arises in the
verified claims). -/
def charAtStr (s : String) (n : ℕ) : String :=
  match s.data.get? n with
  | some ch => String.mk [ch]
  | none => "undefined"

/-- Result of `getProperty`: a value, the getter-pending signal (the source
sets the `getterStep_` flag and returns the getter function), or an
exception. -/
inductive GetResult where
  | ok (v : JSValue)
  | getterCall (f : JSValue)
  | thrown (e : Thrown)

/-- The body of the
`do { if (name in obj.properties) ... } while (obj = getPrototype(obj))`
loop of `getProperty`, from an object: at the first own occurrence return
the getter if one is installed, else the stored slot; a missing property
yields undefined. -/
def getPropertyWalkObj (name : String) : InterpreterObject → GetResult
  | .mk _ _ p g _ none _ _ _ _ =>
    if (alookup p name).isSome then
      (match alookup g name with
       | some f => .getterCall f
       | none => .ok ((((alookup p name).map PropAttr.value)).getD .undefined))
    else .ok .undefined
  | .mk _ _ p g _ (some pr) _ _ _ _ =>
    if (alookup p name).isSome then
      (match alookup g name with
       | some f => .getterCall f
       | none => .ok ((((alookup p name).map PropAttr.value)).getD .undefined))
    else getPropertyWalkObj name pr
termination_by structural x => x

/-- `getPropertyWalkObj` lifted to a possibly-null starting object. -/
def getPropertyWalk (name : String) : Option InterpreterObject → GetResult
  | none => .ok .undefined
  | some o => getPropertyWalkObj name o

/-- Model of `Interpreter.getProperty(obj, name)` (the `name` argument is
already stringified by the callers).  The re-entrancy guard on `getterStep_`
is a host-fatal path not reachable in the modelled flows and is omitted. -/
def getProperty (ctx : InterpCtx) (obj : JSValue) (name : String) : GetResult :=
  match obj with
  | .undefined => .thrown (.interp .typeError ("Cannot read property '" ++ name ++ "' of undefined"))
  | .jsNull => .thrown (.interp .typeError ("Cannot read property '" ++ name ++ "' of null"))
  | .hobj (.func i n a hp) =>
    -- typeof is 'function', so the pseudo-object guard passes; such a value
    -- has no `properties` and `getPrototype` yields null, so the walk below
    -- finds nothing.
    getPropertyWalk name (getPrototype ctx (.hobj (.func i n a hp)))
  | .hobj _ => .thrown (.host "Expecting native value or pseudo object")
  | v =>
    if name == "length" && isa ctx v ctx.STRING_PROTO then
      .ok (.number (.rat ((jsDisplayFull v).length)))
    else if firstCharBelow64 name && isa ctx v ctx.STRING_PROTO &&
        (match legalArrayIndex name with
         | some n => decide (n < (jsDisplayFull v).length)
         | none => false) then
      .ok (.string (charAtStr (jsDisplayFull v) ((legalArrayIndex name).getD 0)))
    else
      match v with
      | .iobj o => getPropertyWalk name (some o)
      | prim => getPropertyWalk name (getPrototype ctx prim)

/-- The own-or-inherited presence walk of `hasProperty`, from an object. -/
def hasOwnChainObj (name : String) : InterpreterObject → Bool
  | .mk _ _ p _ _ none _ _ _ _ => (alookup p name).isSome
  | .mk _ _ p _ _ (some pr) _ _ _ _ => (alookup p name).isSome || hasOwnChainObj name pr
termination_by structural x => x

/-- `hasOwnChainObj` lifted to a possibly-null starting object. -/
def hasOwnChain (name : String) : Option InterpreterObject → Bool
  | none => false
  | some o => hasOwnChainObj name o

/-- Model of `Interpreter.hasProperty(obj, name)` (restricted to
`InterpreterObject` receivers, as in every modelled call site; other
receivers throw a host TypeError in the source). -/
def hasProperty (ctx : InterpCtx) (o : InterpreterObject) (name : String) : Bool :=
  if name == "length" && isa ctx (.iobj o) ctx.STRING_PROTO then true
  else if isa ctx (.iobj o) ctx.STRING_PROTO &&
      (match legalArrayIndex name with
       | some n => decide (n < (jsDisplayFull (.iobj o)).length)
       | none => false) then true
  else hasOwnChain name (some o)

/-- The `opt_descriptor` argument of `setProperty`: each field is present or
absent (`'x' in opt_descriptor`).  A present-but-falsy `get`/`set` entry is
conflated with absence; no modelled call site passes one. -/
structure Descriptor where
  get : Option JSValue
  set : Option JSValue
  configurable : Option Bool
  enumerable : Option Bool
  writable : Option Bool
  value : Option JSValue

/-- The empty descriptor. -/
def Descriptor.empty : Descriptor := ⟨none, none, none, none, none, none⟩

/-- `READONLY_DESCRIPTOR` of the source. -/
def READONLY_DESCRIPTOR : Descriptor := ⟨none, none, some true, some true, some false, none⟩

/-- `NONENUMERABLE_DESCRIPTOR` of the source. -/
def NONENUMERABLE_DESCRIPTOR : Descriptor := ⟨none, none, some true, some false, some true, none⟩

/-- `READONLY_NONENUMERABLE_DESCRIPTOR` of the source. -/
def READONLY_NONENUMERABLE_DESCRIPTOR : Descriptor := ⟨none, none, some true, some false, some false, none⟩

/-- `NONCONFIGURABLE_READONLY_NONENUMERABLE_DESCRIPTOR` of the source. -/
def NONCONFIGURABLE_READONLY_NONENUMERABLE_DESCRIPTOR : Descriptor :=
  ⟨none, none, some false, some false, some false, none⟩

/-- `VARIABLE_DESCRIPTOR` of the source. -/
def VARIABLE_DESCRIPTOR : Descriptor := ⟨none, none, some false, some true, some true, none⟩

/-- Update the binding of `k` in an association list in place, or append it. -/
def updateAssoc {α : Type} (l : List (String × α)) (k : String) (v : α) : List (String × α) :=
  if (alookup l k).isSome then l.map (fun p => if p.1 == k then (k, v) else p)
  else l ++ [(k, v)]

/-- Remove every binding of `k` from an association list (host `delete`). -/
def eraseAssoc {α : Type} (l : List (String × α)) (k : String) : List (String × α) :=
  l.filter (fun p => p.1 != k)

/-- Host plain assignment `obj.properties[name] = value` on the null-proto
backing map (the `try` block of `setProperty`): creating a fresh enumerable
slot, updating a writable data slot, or failing (strict-mode host TypeError,
also covering the placeholder-accessor slots whose placeholder functions
throw). -/
def hostAssign (props : List (String × PropAttr)) (name : String) (v : JSValue) :
    Option (List (String × PropAttr)) :=
  match alookup props name with
  | none => some (props ++ [(name, PropAttr.plain v)])
  | some a =>
    if a.isAccessor || !a.writable then none
    else some (updateAssoc props name (PropAttr.mk v a.writable a.enumerable a.configurable false))

/-- The effective host descriptor assembled by the descriptor branch of
`setProperty` before the `Object.defineProperty` call: placeholder accessors
for present `get`/`set`, the attribute flags, and the value (taken from the
descriptor or from the `value` argument). -/
structure EffDescriptor where
  hasGet : Bool
  hasSet : Bool
  configurable : Option Bool
  enumerable : Option Bool
  writable : Option Bool
  value : Option JSValue

/-- Host `Object.defineProperty(obj.properties, name, descriptor)` on the
backing map.  `none` is the host TypeError caught by the source and turned
into the interpreted `Cannot redefine property` error.  For a
non-configurable slot the model rejects any value redefinition of a
non-writable slot (the host allows rewriting the same value; no modelled
flow redefines a non-configurable slot at all). -/
def hostDefine (props : List (String × PropAttr)) (name : String) (d : EffDescriptor) :
    Option (List (String × PropAttr)) :=
  let isAcc := d.hasGet || d.hasSet
  if isAcc && (d.value.isSome || d.writable.isSome) then none
  else
    match alookup props name with
    | none =>
      some (props ++ [(name, PropAttr.mk (d.value.getD .undefined) (d.writable.getD false)
        (d.enumerable.getD false) (d.configurable.getD false) isAcc)])
    | some a =>
      if a.configurable then
        let becomesAcc := if isAcc then true
          else if d.value.isSome || d.writable.isSome then false else a.isAccessor
        some (updateAssoc props name (PropAttr.mk
          (if becomesAcc then .undefined
           else (d.value.getD (if a.isAccessor then .undefined else a.value)))
          (d.writable.getD a.writable) (d.enumerable.getD a.enumerable)
          (d.configurable.getD a.configurable) becomesAcc))
      else
        if d.configurable.getD false then none
        else if (match d.enumerable with
                 | some e => e != a.enumerable
                 | none => false) then none
        else if isAcc && !a.isAccessor then none
        else if a.isAccessor && (d.value.isSome || d.writable.isSome) then none
        else if a.isAccessor then some props
        else if d.writable.getD false && !a.writable then none
        else if !a.writable && d.value.isSome then none
        else
          some (updateAssoc props name (PropAttr.mk (d.value.getD a.value)
            (d.writable.getD a.writable) a.enumerable a.configurable false))

/-- Result of `setProperty`: the possibly updated receiver, a setter-pending
signal (the source sets `setterStep_` and returns the setter function), or
an exception.  Every alternative carries the receiver because the Array
length side effects happen before the later checks can throw or signal. -/
inductive SetResult where
  | ok (obj : JSValue)
  | setterCall (f : JSValue) (obj : JSValue)
  | thrown (e : Thrown) (obj : JSValue)

/-- The `while (!(name in defObj.properties))` walk of the plain branch of
`setProperty`, from an object: the chain object owning `name`, or the
receiver itself for a fresh property. -/
def findDefObjFrom (receiver : InterpreterObject) (name : String) :
    InterpreterObject → InterpreterObject
  | .mk t c p g s none pe ic d nf =>
    if (alookup p name).isSome then .mk t c p g s none pe ic d nf
    else receiver
  | .mk t c p g s (some pr) pe ic d nf =>
    if (alookup p name).isSome then .mk t c p g s (some pr) pe ic d nf
    else findDefObjFrom receiver name pr
termination_by structural x => x

/-- `findDefObjFrom` starting at the receiver itself. -/
def findDefObj (receiver : InterpreterObject) (name : String) :
    Option InterpreterObject → InterpreterObject
  | none => receiver
  | some o => findDefObjFrom receiver name o

/-- The primitive-receiver branch of `setProperty` (`!(obj instanceof
InterpreterObject)` after the earlier checks): strict mode throws, loose
mode silently ignores. -/
def setPropertyPrim (strict : Bool) (obj : JSValue) (name : String)
    (descOpt : Option Descriptor) : SetResult :=
  if (match descOpt with
      | some d => (d.get.isSome || d.set.isSome) && (d.value.isSome || d.writable.isSome)
      | none => false) then
    .thrown (.interp .typeError
      ("Invalid property descriptor. Cannot both specify accessors and a value or writable attribute"))
      obj
  else if strict then
    .thrown (.interp .typeError ("Can't create property '" ++ name ++ "' on '" ++
      jsDisplayFull obj ++ "'")) obj
  else .ok obj

/-- The common tail of `setProperty`: extensibility check, then the
descriptor branch (`Object.defineProperty` with placeholder accessors) or
the plain branch (prototype walk for a setter/getter, else host
assignment). -/
def setPropertyTail (_ctx : InterpCtx) (strict : Bool) (o : InterpreterObject) (name : String)
    (value : Option JSValue) (descOpt : Option Descriptor) : SetResult :=
  if o.preventExtensions && !(alookup o.properties name).isSome then
    if strict then
      .thrown (.interp .typeError ("Can't add property '" ++ name ++
        "', object is not extensible")) (.iobj o)
    else .ok (.iobj o)
  else
    match descOpt with
    | some d =>
      -- Define the property.
      let o1 := match d.get with
        | some g => o.withGetter (updateAssoc o.getter name g)
        | none => o
      let o2 := match d.set with
        | some st => o1.withSetter (updateAssoc o1.setter name st)
        | none => o1
      -- `writable` or an effective value removes the accessor entries.
      let hasValue := d.value.isSome || value.isSome
      let o3 := if d.writable.isSome || hasValue then
          (o2.withGetter (eraseAssoc o2.getter name)).withSetter (eraseAssoc o2.setter name)
        else o2
      let eff : EffDescriptor :=
        ⟨d.get.isSome, d.set.isSome, d.configurable, d.enumerable, d.writable,
         match d.value with
         | some v => some v
         | none => value⟩
      match hostDefine o3.properties name eff with
      | some props => .ok (.iobj (o3.withProperties props))
      | none => .thrown (.interp .typeError ("Cannot redefine property: " ++ name)) (.iobj o3)
    | none =>
      -- Set the property.
      match value with
      | none => .thrown (.host "Value not specified.") (.iobj o)
      | some v =>
        let defObj := findDefObj o name (some o)
        match alookup defObj.setter name with
        | some f => .setterCall f (.iobj o)
        | none =>
          match alookup defObj.getter name with
          | some _ =>
            if strict then
              .thrown (.interp .typeError ("Cannot set property '" ++ name ++ "' of object '" ++
                jsDisplayFull (.iobj o) ++ "' which only has a getter")) (.iobj o)
            else .ok (.iobj o)
          | none =>
            match hostAssign o.properties name v with
            | some props => .ok (.iobj (o.withProperties props))
            | none =>
              if strict then
                .thrown (.interp .typeError ("Cannot assign to read only property '" ++ name ++
                  "' of object '" ++ jsDisplayFull (.iobj o) ++ "'")) (.iobj o)
              else .ok (.iobj o)

/-- The least enumerable, non-configurable integer index at or above `m` in
a `properties` map: the key whose `delete` the length-shrink loop of
`setProperty` throws on.  The `for (i in obj.properties)` loop visits the
integer-index keys in ascending numeric order (host enumeration order) and
skips non-enumerable slots, so the first failing `delete` is the least such
index. -/
def shrinkBadIdx (m : ℕ) (props : List (String × PropAttr)) : Option ℕ :=
  props.foldr (fun p acc =>
    match legalArrayIndex p.1 with
    | some j =>
      if p.2.enumerable && !p.2.configurable && decide (m ≤ j) then
        match acc with
        | none => some j
        | some k => some (min j k)
      else acc
    | none => acc) none

/-- The `properties` map after the length-shrink loop runs to completion:
every enumerable integer-index slot at or above `m` is deleted
(non-enumerable slots are not visited by `for (i in ...)` and survive). -/
def shrinkAll (m : ℕ) (props : List (String × PropAttr)) : List (String × PropAttr) :=
  props.filter (fun p =>
    match legalArrayIndex p.1 with
    | some j => !(p.2.enumerable && decide (m ≤ j))
    | none => true)

/-- The `properties` map at the moment the shrink loop's `delete` throws on
index `jb`: the indices are visited in ascending order, so every enumerable
integer index in `[m, jb)` has already been deleted. -/
def shrinkUpTo (m jb : ℕ) (props : List (String × PropAttr)) : List (String × PropAttr) :=
  props.filter (fun p =>
    match legalArrayIndex p.1 with
    | some j => !(p.2.enumerable && decide (m ≤ j) && decide (j < jb))
    | none => true)

/-- The Array length magic of `setProperty` (receiver class `'Array'`).
`const len = obj.properties.length` runs first: on an accessor slot the
read invokes the placeholder getter, a host error (for an Array-classed
receiver the `length` slot can in fact never become an accessor — the
length branch returns early on a value-less descriptor — so this guard is
vacuous on reachable states).  Writing `length` validates the new length
(interpreted RangeError on an illegal one) and runs the `for`-`in`/`delete`
shrink loop, which skips non-enumerable index slots and — the source being
strict-mode class-body code — throws a host TypeError at the first
non-configurable one.  Writing an integer index lifts `length` to
`max(length, i + 1)` by direct host assignment, which on a non-writable
`length` slot likewise throws a host TypeError (the `try` of the source
only wraps the final plain assignment, not this one).  Then control
continues with the common tail.  Host-exception message texts are
engine-dependent; the model fixes representative ones. -/
def setPropertyArray (ctx : InterpCtx) (strict : Bool) (o : InterpreterObject) (name : String)
    (value : Option JSValue) (descOpt : Option Descriptor) : SetResult :=
  if o.cls == some "Array" then
    if (match alookup o.properties "length" with
        | some la => la.isAccessor
        | none => false) then
      .thrown (.host "Placeholder getter") (.iobj o)
    else
      let len := (((alookup o.properties "length").map PropAttr.value).getD .undefined)
      if name == "length" then
        -- With a descriptor lacking `value`, return immediately.
        match (match descOpt with
               | some d => if d.value.isSome then some d.value else none
               | none => some value) with
        | none => .ok (.iobj o)
        | some v =>
          match legalArrayLengthNum (jsToNumber (v.getD .undefined)) with
          | none => .thrown (.interp .rangeError "Invalid array length") (.iobj o)
          | some m =>
            if jsLtNum (.rat m) (jsToNumber len) then
              match shrinkBadIdx m o.properties with
              | none =>
                setPropertyTail ctx strict (o.withProperties (shrinkAll m o.properties))
                  name (some (.number (.rat m))) descOpt
              | some jb =>
                .thrown (.host ("Cannot delete property '" ++ natToStr jb ++ "' of #<Object>"))
                  (.iobj (o.withProperties (shrinkUpTo m jb o.properties)))
            else
              setPropertyTail ctx strict o name (some (.number (.rat m))) descOpt
      else
        match legalArrayIndex name with
        | some i =>
          let newLen := jsMax (jsToNumber len) (.rat (i + 1))
          match alookup o.properties "length" with
          | some la =>
            if la.writable then
              setPropertyTail ctx strict
                (o.withProperties (updateAssoc o.properties "length"
                  (PropAttr.mk (.number newLen) la.writable la.enumerable la.configurable false)))
                name value descOpt
            else
              .thrown (.host ("Cannot assign to read only property 'length' of object '" ++
                jsDisplayFull (.iobj o) ++ "'")) (.iobj o)
          | none =>
            setPropertyTail ctx strict
              (o.withProperties (updateAssoc o.properties "length" (PropAttr.plain (.number newLen))))
              name value descOpt
        | none => setPropertyTail ctx strict o name value descOpt
  else setPropertyTail ctx strict o name value descOpt

/-- Model of `Interpreter.setProperty(obj, name, value, opt_descriptor)`.
`strict` stands for `!this.stateStack || this.getScope().strict`; `value` is
`none` for the `VALUE_IN_DESCRIPTOR` sentinel.  The re-entrancy guard on
`setterStep_` is a host-fatal path not reachable in the modelled flows and
is omitted. -/
def setProperty (ctx : InterpCtx) (strict : Bool) (obj : JSValue) (name : String)
    (value : Option JSValue) (descOpt : Option Descriptor) : SetResult :=
  match obj with
  | .undefined => .thrown (.interp .typeError ("Cannot set property '" ++ name ++ "' of undefined")) obj
  | .jsNull => .thrown (.interp .typeError ("Cannot set property '" ++ name ++ "' of null")) obj
  | .hobj (.func i n a hp) =>
    -- typeof is 'function': passes the pseudo-object guard but fails the
    -- `instanceof InterpreterObject` check below.
    setPropertyPrim strict (.hobj (.func i n a hp)) name descOpt
  | .hobj h => .thrown (.host "Expecting native value or pseudo object") (.hobj h)
  | .boolean b => setPropertyPrim strict (.boolean b) name descOpt
  | .number q => setPropertyPrim strict (.number q) name descOpt
  | .string s => setPropertyPrim strict (.string s) name descOpt
  | .iobj o =>
    if (match descOpt with
        | some d => (d.get.isSome || d.set.isSome) && (d.value.isSome || d.writable.isSome)
        | none => false) then
      .thrown (.interp .typeError
        ("Invalid property descriptor. Cannot both specify accessors and a value or writable attribute"))
        (.iobj o)
    else if isa ctx (.iobj o) ctx.STRING_PROTO &&
        (name == "length" ||
         (match legalArrayIndex name with
          | some n => decide (n < (jsDisplayFull (.iobj o)).length)
          | none => false)) then
      if strict then
        .thrown (.interp .typeError ("Cannot assign to read only property '" ++ name ++
          "' of String '" ++ (match o.data with
            | some (.boxedString s) => s
            | _ => jsDisplayFull (.iobj o)) ++ "'")) (.iobj o)
      else .ok (.iobj o)
    else
      -- Array magic length handling, then extensibility, then the
      -- descriptor or plain branch.
      setPropertyArray ctx strict o name value descOpt

/-- A `this.setProperty(...)` statement whose return value (a possible
pending setter) is discarded by the caller: exceptions propagate, the
mutated receiver is kept.  The last two alternatives are unreachable
(`setProperty` never changes the shape of an object receiver). -/
def setPropIgnore (ctx : InterpCtx) (strict : Bool) (o : InterpreterObject) (name : String)
    (value : Option JSValue) (descOpt : Option Descriptor) : Except Thrown InterpreterObject :=
  match setProperty ctx strict (.iobj o) name value descOpt with
  | .ok (.iobj a) => .ok a
  | .setterCall _ (.iobj a) => .ok a
  | .thrown e _ => .error e
  | .ok _ => .ok o
  | .setterCall _ _ => .ok o

/-- Model of `createObjectProto(proto)`: a fresh object with the given
prototype; objects hanging below the error prototype are class-tagged
`'Error'` so that their host `toString` can recognise them. -/
def createObjectProto (ctx : InterpCtx) (proto : Option InterpreterObject) : InterpreterObject :=
  let obj : InterpreterObject := .mk none none [] [] [] proto false false none none
  if isa ctx (.iobj obj) ctx.ERROR_PROTO then obj.withCls (some "Error") else obj

/-- Model of `createArray()`: a fresh object below `ARRAY_PROTO` with a
writable, non-enumerable, non-configurable `length` of 0, class-tagged
`'Array'` (the class is set after the `length` define, so no Array magic
runs during creation). -/
def createArray (ctx : InterpCtx) (strict : Bool) : Except Thrown InterpreterObject := do
  let array := createObjectProto ctx (some ctx.ARRAY_PROTO)
  let array ← setPropIgnore ctx strict array "length" (some (.number (.rat 0)))
    (some ⟨none, none, some false, some false, some true, none⟩)
  return array.withCls (some "Array")

/-- Model of `populateRegExp(pseudoRegexp, nativeRegexp)`.  Its first
statement assigns `new RegExp(nativeRegexp.source, nativeRegexp.flags)` to
`pseudoRegexp.data`; but `data` on `InterpreterObject` is a get-only
prototype accessor (`get data() { return null; }` in `src/object.ts`) with
no setter and no own backing field, and class bodies are strict-mode code,
so the assignment throws a host TypeError before any property is installed.
The message text is engine-dependent; the model fixes a representative
one. -/
def populateRegExp (_ctx : InterpCtx) (_strict : Bool) (_pseudoRegexp : InterpreterObject)
    (_source _flags : String) (_lastIndex : JsNum) : Except Thrown InterpreterObject :=
  .error (.host "Cannot set property data of #<InterpreterObject> which has only a getter")

/-- Model of `createFunctionBase_(argumentLength, isConstructor)`.  For a
constructor a fresh prototype object with a `constructor` back-reference is
installed; in this tree model the back-reference necessarily stores a
snapshot of the function (the mutual aliasing of the source heap is not
representable, and no verified claim depends on it).  A non-constructor gets
the `illegalConstructor` flag and no prototype object. -/
def createFunctionBase_ (ctx : InterpCtx) (strict : Bool) (argumentLength : JsNum)
    (isConstructor : Bool) : Except Thrown InterpreterObject := do
  let func := createObjectProto ctx (some ctx.FUNCTION_PROTO)
  if isConstructor then
    let proto := createObjectProto ctx (some ctx.OBJECT_PROTO)
    let protoWithCtor ← setPropIgnore ctx strict proto "constructor" (some (.iobj func))
      (some NONENUMERABLE_DESCRIPTOR)
    let func ← setPropIgnore ctx strict func "prototype" (some (.iobj protoWithCtor))
      (some NONENUMERABLE_DESCRIPTOR)
    let func ← setPropIgnore ctx strict func "length" (some (.number argumentLength))
      (some READONLY_NONENUMERABLE_DESCRIPTOR)
    return func.withCls (some "Function")
  else
    let func := func.withIllegalConstructor true
    let func ← setPropIgnore ctx strict func "length" (some (.number argumentLength))
      (some READONLY_NONENUMERABLE_DESCRIPTOR)
    return func.withCls (some "Function")

/-- Model of `createNativeFunction(nativeFunc, isConstructor)`: the base
function object with the native payload (`id` models the value assigned from
the `functionCounter_`), the host function's arity as `length` and its name
as `name`. -/
def createNativeFunction (ctx : InterpCtx) (strict : Bool) (id : ℕ) (fname : String)
    (argCount : ℕ) (isConstructor : Bool) : Except Thrown InterpreterObject := do
  let func ← createFunctionBase_ ctx strict (.rat argCount) isConstructor
  let func := func.withNativeFuncId (some id)
  let func ← setPropIgnore ctx strict func "name" (some (.string fname))
    (some READONLY_NONENUMERABLE_DESCRIPTOR)
  return func

mutual
/-- Model of `nativeToPseudo(nativeObj)`.  `InterpreterObject` arguments are
rejected, primitives and null pass through, host functions become native
wrappers, host arrays and plain objects are copied recursively; host
regexes and dates hit the get-only `data` accessor (see `populateRegExp`)
and throw.  The host function wrapper closes over the host callable; the
wrapper itself has arity 0 and display name `wrapper`, and it is a
constructor exactly when the host function has an own `prototype`
descriptor.  Fuel only limits the recursion depth, decreasing at every
recursive call; `jsSize` dominates the consumption on any real input. -/
def nativeToPseudo (ctx : InterpCtx) (strict : Bool) : ℕ → JSValue → Except Thrown JSValue
  | _, .iobj _ => .error (.host "Object is already pseudo")
  | _, .undefined => .ok .undefined
  | _, .jsNull => .ok .jsNull
  | _, .boolean b => .ok (.boolean b)
  | _, .number n => .ok (.number n)
  | _, .string s => .ok (.string s)
  | fuel, .hobj h =>
    match h with
    | .regexp src flags li => do
      let pr := createObjectProto ctx (some ctx.REGEXP_PROTO)
      let pr ← populateRegExp ctx strict pr src flags li
      return .iobj pr
    | .date _ =>
      -- `pseudoDate.data = new Date(...)`: the same get-only `data` accessor
      -- as in `populateRegExp`, so the strict-mode write throws.
      .error (.host "Cannot set property data of #<InterpreterObject> which has only a getter")
    | .func id _fname _argc hasProto => do
      let f ← createNativeFunction ctx strict id "wrapper" 0 hasProto
      return .iobj f
    | .array elems =>
      (match fuel with
       | 0 => .error (.host "recursion fuel exhausted")
       | fuel + 1 => do
         let arr ← createArray ctx strict
         let arr ← n2pArrayLoop ctx strict fuel elems 0 arr
         return .iobj arr)
    | .plain fields =>
      (match fuel with
       | 0 => .error (.host "recursion fuel exhausted")
       | fuel + 1 => do
         let o := createObjectProto ctx (some ctx.OBJECT_PROTO)
         let o ← n2pObjLoop ctx strict fuel fields o
         return .iobj o)
termination_by structural fuel _ => fuel

/-- The host array copy loop of `nativeToPseudo`: indices present in the
host array are converted and installed with `setProperty` (whose Array magic
lifts `length`); holes are skipped. -/
def n2pArrayLoop (ctx : InterpCtx) (strict : Bool) :
    ℕ → List (Option JSValue) → ℕ → InterpreterObject → Except Thrown InterpreterObject
  | _, [], _, acc => .ok acc
  | 0, _ :: _, _, _ => .error (.host "recursion fuel exhausted")
  | fuel + 1, none :: rest, i, acc => n2pArrayLoop ctx strict fuel rest (i + 1) acc
  | fuel + 1, some x :: rest, i, acc => do
    let px ← nativeToPseudo ctx strict fuel x
    let acc ← setPropIgnore ctx strict acc (natToStr i) (some px) none
    n2pArrayLoop ctx strict fuel rest (i + 1) acc
termination_by structural fuel _ _ _ => fuel

/-- The `for (const key in nativeObj)` copy loop of `nativeToPseudo` over a
plain host object (its own enumerable fields). -/
def n2pObjLoop (ctx : InterpCtx) (strict : Bool) :
    ℕ → List (String × JSValue) → InterpreterObject → Except Thrown InterpreterObject
  | _, [], acc => .ok acc
  | 0, _ :: _, _ => .error (.host "recursion fuel exhausted")
  | fuel + 1, (k, x) :: rest, acc => do
    let px ← nativeToPseudo ctx strict fuel x
    let acc ← setPropIgnore ctx strict acc k (some px) none
    n2pObjLoop ctx strict fuel rest acc
termination_by structural fuel _ _ => fuel
end

/-- Trailing holes of a host array do not contribute to its `length` (the
source only ever assigns present indices), so they are trimmed from the
modelled element list. -/
def trimTrailingHoles (l : List (Option JSValue)) : List (Option JSValue) :=
  (l.reverse.dropWhile (fun e => e.isNone)).reverse

mutual
/-- Model of `pseudoToNative(pseudoObj, opt_cycles)`.  Primitives pass
through, non-`InterpreterObject` objects are rejected, regexes and dates are
rebuilt from the `data` slot, arrays are read back through
`getProperty`/`hasProperty` up to `length`, and other objects are copied
from their enumerable properties.  `cycles` is the identity-tracked path of
the source; on tree-modelled values a revisit can never occur (a proper
subterm is never identical to an ancestor), so the revisit branch is
unreachable.  Fuel only limits the recursion depth, decreasing at every
recursive call. -/
def pseudoToNative (ctx : InterpCtx) : ℕ → List InterpreterObject → JSValue → Except Thrown JSValue
  | _, _, .undefined => .ok .undefined
  | _, _, .jsNull => .ok .jsNull
  | _, _, .boolean b => .ok (.boolean b)
  | _, _, .number n => .ok (.number n)
  | _, _, .string s => .ok (.string s)
  | _, _, .hobj _ => .error (.host "Object is not pseudo")
  | fuel, cycles, .iobj o =>
    if isa ctx (.iobj o) ctx.REGEXP_PROTO then
      match o.data with
      | some (.regexp s f li) => .ok (.hobj (.regexp s f li))
      | _ => .error (.host "Cannot read properties of the data slot")
    else if isa ctx (.iobj o) ctx.DATE_PROTO then
      match o.data with
      | some (.date ms) => .ok (.hobj (.date ms))
      | _ => .error (.host "Cannot read properties of the data slot")
    else if cycles.any (objSame o) then
      .ok .undefined
    else
      match fuel with
      | 0 => .error (.host "recursion fuel exhausted")
      | fuel + 1 =>
        if isa ctx (.iobj o) ctx.ARRAY_PROTO then
          match getProperty ctx (.iobj o) "length" with
          | .thrown e => .error e
          | .getterCall _ => .error (.host "Getter not supported in that context")
          | .ok lenV => do
            let entries ← p2nArrayLoop ctx (cycles ++ [o]) o fuel
              (loopCount (jsToNumber lenV)) 0
            return .hobj (.array (trimTrailingHoles entries))
        else do
          let fields ← p2nObjLoop ctx (cycles ++ [o]) fuel o.properties
          return .hobj (.plain fields)
termination_by structural fuel _ _ => fuel

/-- The array read-back loop of `pseudoToNative`: for each `i < len`,
if `hasProperty` holds the value is fetched with `getProperty` and converted,
else the position stays a hole.  A pending getter would trip the re-entrancy
guard of the next property access; this is modelled as an immediate host
error. -/
def p2nArrayLoop (ctx : InterpCtx) (cycles : List InterpreterObject)
    (o : InterpreterObject) : ℕ → ℕ → ℕ → Except Thrown (List (Option JSValue))
  | _, 0, _ => .ok []
  | 0, _ + 1, _ => .error (.host "recursion fuel exhausted")
  | fuel + 1, rem + 1, i =>
    if hasProperty ctx o (natToStr i) then
      match getProperty ctx (.iobj o) (natToStr i) with
      | .thrown e => .error e
      | .getterCall _ => .error (.host "Getter not supported in that context")
      | .ok v => do
        let nv ← pseudoToNative ctx fuel cycles v
        let rest ← p2nArrayLoop ctx cycles o fuel rem (i + 1)
        return (some nv :: rest)
    else do
      let rest ← p2nArrayLoop ctx cycles o fuel rem (i + 1)
      return (none :: rest)
termination_by structural fuel _ _ => fuel

/-- The `for (const key in pseudoObj.properties)` copy loop of
`pseudoToNative`: enumerable own slots are read raw and converted (an
accessor slot would invoke the placeholder getter, a host error); the host
result is built with write-safe `Object.defineProperty`, modelled as plain
insertion. -/
def p2nObjLoop (ctx : InterpCtx) (cycles : List InterpreterObject) :
    ℕ → List (String × PropAttr) → Except Thrown (List (String × JSValue))
  | _, [] => .ok []
  | 0, _ :: _ => .error (.host "recursion fuel exhausted")
  | fuel + 1, (k, a) :: rest =>
    if !a.enumerable then p2nObjLoop ctx cycles fuel rest
    else if a.isAccessor then .error (.host "Placeholder getter")
    else do
      let nv ← pseudoToNative ctx fuel cycles a.value
      let tail ← p2nObjLoop ctx cycles fuel rest
      return ((k, nv) :: tail)
termination_by structural fuel _ => fuel
end

/-- The scope chain: a stack of ordinary scopes ending at the distinguished
global scope (`this.globalScope`), each carrying its strict flag and its
variables object. -/
inductive ScopeChain where
  | global (strict : Bool) (object : InterpreterObject) : ScopeChain
  | frame (strict : Bool) (object : InterpreterObject) (parent : ScopeChain) : ScopeChain

namespace ScopeChain

/-- The strict flag of the innermost scope. -/
def strict : ScopeChain → Bool
  | .global s _ => s
  | .frame s _ _ => s

/-- The variables object of the global scope at the bottom of the chain. -/
def globalObject : ScopeChain → InterpreterObject
  | .global _ o => o
  | .frame _ _ p => globalObject p

end ScopeChain

/-- The syntactic shape of the state at the top of the state stack when an
identifier resolves (`stepIdentifier` pops itself first, so this is the
immediately enclosing expression node). -/
structure PrevNode where
  nodeType : String
  operator : String

/-- Model of `getValueFromScope(name)`: walk the non-global scopes by own
presence; at the global scope fall through to the prototype-aware
`hasProperty`/`getProperty`; a missing name yields undefined under an
enclosing `typeof` and a ReferenceError otherwise. -/
def getValueFromScope (ctx : InterpCtx) (sc : ScopeChain) (prevNode : PrevNode)
    (name : String) : GetResult :=
  match sc with
  | .frame _ obj parent =>
    match alookup obj.properties name with
    | some a => .ok a.value
    | none => getValueFromScope ctx parent prevNode name
  | .global _ gobj =>
    if hasProperty ctx gobj name then getProperty ctx (.iobj gobj) name
    else if prevNode.nodeType == "UnaryExpression" && prevNode.operator == "typeof" then
      .ok .undefined
    else .thrown (.interp .referenceError (name ++ " is not defined"))

/-- Result of `setValueToScope`: the updated chain, a pending setter, or an
exception. -/
inductive SetScopeResult where
  | ok (sc : ScopeChain)
  | setterCall (f : JSValue) (sc : ScopeChain)
  | thrown (e : Thrown) (sc : ScopeChain)

/-- The walk of `setValueToScope` below the global scope, with `strict`
captured from the innermost scope before walking. -/
def setValueToScopeWalk (ctx : InterpCtx) (strict : Bool) (sc : ScopeChain)
    (name : String) (value : JSValue) : SetScopeResult :=
  match sc with
  | .frame fstrict obj parent =>
    match alookup obj.properties name with
    | some a =>
      .ok (.frame fstrict (obj.withProperties (updateAssoc obj.properties name
        (PropAttr.mk value a.writable a.enumerable a.configurable a.isAccessor))) parent)
    | none =>
      match setValueToScopeWalk ctx strict parent name value with
      | .ok p => .ok (.frame fstrict obj p)
      | .setterCall f p => .setterCall f (.frame fstrict obj p)
      | .thrown e p => .thrown e (.frame fstrict obj p)
  | .global gstrict gobj =>
    if !strict || hasProperty ctx gobj name then
      match setProperty ctx strict (.iobj gobj) name (some value) none with
      | .ok (.iobj g) => .ok (.global gstrict g)
      | .setterCall f (.iobj g) => .setterCall f (.global gstrict g)
      | .thrown e (.iobj g) => .thrown e (.global gstrict g)
      | .ok _ => .ok (.global gstrict gobj)
      | .setterCall f _ => .setterCall f (.global gstrict gobj)
      | .thrown e _ => .thrown e (.global gstrict gobj)
    else .thrown (.interp .referenceError (name ++ " is not defined")) (.global gstrict gobj)

/-- Model of `setValueToScope(name, value)`: own-presence writes on the
non-global scopes (plain map assignment, no setter dispatch); at the global
scope, `setProperty` when loose or when the name is visible there, and a
ReferenceError for a strict-mode implicit global. -/
def setValueToScope (ctx : InterpCtx) (sc : ScopeChain) (name : String) (value : JSValue) :
    SetScopeResult :=
  setValueToScopeWalk ctx sc.strict sc name value

/-- The AST subset of the termination machine: `Program` bodies,
`ExpressionStatement` and `Literal` — enough to run whole
programs of expression statements, which is what the state-stack claim
needs. -/
inductive MNode where
  | program (body : List MNode) : MNode
  | expressionStatement (expr : MNode) : MNode
  | literal (v : JSValue) : MNode

/-- One frame of the state stack (`new State(node, scope)` plus the scratch
fields used by the modelled step functions).  `progBody` models the
`node['body']` queue that `stepProgram` consumes with `shift()`. -/
structure MFrame where
  node : MNode
  done : Bool
  doneSub : Bool
  value : JSValue
  progBody : List MNode

/-- A fresh frame for a node. -/
def MFrame.fresh (n : MNode) : MFrame :=
  { node := n, done := false, doneSub := false, value := .undefined,
    progBody := match n with
                | .program body => body
                | _ => [] }

/-- The machine state: the state stack (head is the top) and the
`interpreter.value` observable. -/
structure MachineState where
  stack : List MFrame
  value : JSValue

/-- The initial machine for a program. -/
def initMachine (p : MNode) : MachineState :=
  { stack := [MFrame.fresh p], value := .undefined }

/-- Result of one `step()` call: a successful step (`true`), termination
(`false`: empty stack or a finished `Program`), or a host crash (an
exception other than the swallowed step sentinel). -/
inductive StepResult where
  | ran (s : MachineState)
  | finished (s : MachineState)
  | crashed (msg : String)

/-- Whether a frame is a `Program` frame. -/
def MFrame.isProgram (f : MFrame) : Bool :=
  match f.node with
  | .program _ => true
  | _ => false

/-- Model of `step()` restricted to the modelled node set, for user code
(every node carries source positions, so the polyfill coalescing loop runs
exactly one micro-step).  `stepProgram` consumes the body queue and marks
`done` without ever popping; `stepExpressionStatement` pushes its expression
and later pops, publishing its value to `interpreter.value`; `stepLiteral`
pops immediately and writes the parent frame's value (a regex literal goes
through `populateRegExp`, whose throw surfaces as a crash). -/
def machineStep (ctx : InterpCtx) (s : MachineState) : StepResult :=
  match s.stack with
  | [] => .finished s
  | top :: rest =>
    match top.node with
    | .program _ =>
      if top.done then .finished s
      else
        match top.progBody with
        | e :: es =>
          .ran { s with stack := MFrame.fresh e ::
            { top with done := false, progBody := es } :: rest }
        | [] =>
          .ran { s with stack := { top with done := true } :: rest }
    | .expressionStatement expr =>
      if !top.doneSub then
        .ran { s with stack := MFrame.fresh expr :: { top with doneSub := true } :: rest }
      else
        .ran { stack := rest, value := top.value }
    | .literal v =>
      let converted : Except Thrown JSValue :=
        match v with
        | .hobj (.regexp src flags li) => do
          let pr := createObjectProto ctx (some ctx.REGEXP_PROTO)
          let pr ← populateRegExp ctx false pr src flags li
          return .iobj pr
        | w => .ok w
      match converted with
      | .error _ => .crashed "literal materialisation threw"
      | .ok w =>
        match rest with
        | parent :: rr => .ran { s with stack := { parent with value := w } :: rr }
        | [] => .crashed "Cannot set value of undefined parent state"

/-- The scratch fields of a `CallExpression`/`NewExpression` frame at body
completion: the `isConstructor` mark (set exactly when the frame was entered
through `NewExpression`), the completed `state.value`, and the allocated
`this`. -/
structure CallFrameEnd where
  isConstructor : Bool
  value : JSValue
  funcThis : JSValue

/-- The completion branch of `stepCallExpression` (the final `else`): the
frame pops and the value delivered to the enclosing frame is the allocated
`this` when the frame is a constructor frame and the host `typeof` of the
completed value is not `'object'`; otherwise the completed value itself. -/
def stepCallExpressionFinish (st : CallFrameEnd) : JSValue :=
  if st.isConstructor && !(jsTypeof st.value == "object") then st.funcThis
  else st.value

/-- The `this`-determination of `stepCallExpression` for a `NewExpression`
(after the arguments are done): non-objects and `illegalConstructor`
functions raise a TypeError; the `Array` constructor allocates a fresh
array; otherwise a fresh object hanging below the callee's `prototype`
property (defaulting to `OBJECT_PROTO` for a non-object prototype).  A
prototype that is a host object cannot occur in an interpreter-created heap
and is not representable here. -/
def determineNewThis (ctx : InterpCtx) (strict : Bool) (func : JSValue) :
    Except Thrown JSValue :=
  match func with
  | .iobj f =>
    if f.illegalConstructor then
      .error (.interp .typeError (jsDisplayFull (.iobj f) ++ " is not a constructor"))
    else if objSame f ctx.ARRAY_FUNC then do
      let a ← createArray ctx strict
      return .iobj a
    else
      match (alookup f.properties "prototype").map PropAttr.value with
      | some (.iobj proto) => .ok (.iobj (createObjectProto ctx (some proto)))
      | some (.hobj _) => .error (.host "host object used as a prototype is not representable")
      | some .jsNull => .ok (.iobj (createObjectProto ctx (some ctx.OBJECT_PROTO)))
      | some _ => .ok (.iobj (createObjectProto ctx (some ctx.OBJECT_PROTO)))
      | none => .ok (.iobj (createObjectProto ctx (some ctx.OBJECT_PROTO)))
  | v => .error (.interp .typeError (jsDisplayFull v ++ " is not a constructor"))

/-- The identity tags along a prototype chain, from an object. -/
def chainTagsObj : InterpreterObject → List (Option ℕ)
  | .mk t _ _ _ _ none _ _ _ _ => [t]
  | .mk t _ _ _ _ (some pr) _ _ _ _ => t :: chainTagsObj pr
termination_by structural x => x

/-- The identity tags along a possibly-null prototype chain. -/
def chainTags : Option InterpreterObject → List (Option ℕ)
  | none => []
  | some o => chainTagsObj o

/-- No getter/setter entries at all on an object (true of the built-in
prototypes: `initGlobal` installs only data properties on them). -/
def noAccessorMaps (o : InterpreterObject) : Bool :=
  o.getter.isEmpty && o.setter.isEmpty

/-- No array-index-shaped keys on an object (true of the built-in
prototypes, whose properties are identifier-named methods). -/
def noIndexKeys (o : InterpreterObject) : Bool :=
  o.properties.all (fun p => (legalArrayIndex p.1).isNone)

/-- Both map restrictions at once: only identifier-named data properties. -/
def goodMaps (o : InterpreterObject) : Bool :=
  noAccessorMaps o && noIndexKeys o

/-- `goodMaps` along an entire prototype chain. -/
def chainGoodMaps : InterpreterObject → Bool
  | .mk t c p g s none pe ic d nf => goodMaps (.mk t c p g s none pe ic d nf)
  | .mk t c p g s (some pr) pe ic d nf =>
    goodMaps (.mk t c p g s (some pr) pe ic d nf) && chainGoodMaps pr
termination_by structural x => x

/-- The facts about the `initGlobal` heap that the verified claims rely on:
the built-in prototype singletons carry the fixed identity tags 0–8 (the
`Array` constructor carries 9), their prototype chains have the real shapes
(everything bottoms out at `Object.prototype`, whose prototype is null), and
`Object.prototype`/`Array.prototype` carry only identifier-named data
properties.  All of these hold of the heap the interpreter actually
builds. -/
def wfCtx (ctx : InterpCtx) : Bool :=
  chainTags (some ctx.OBJECT_PROTO) == [some 0] &&
  chainTags (some ctx.FUNCTION_PROTO) == [some 1, some 0] &&
  chainTags (some ctx.ARRAY_PROTO) == [some 2, some 0] &&
  chainTags (some ctx.STRING_PROTO) == [some 3, some 0] &&
  chainTags (some ctx.NUMBER_PROTO) == [some 4, some 0] &&
  chainTags (some ctx.BOOLEAN_PROTO) == [some 5, some 0] &&
  chainTags (some ctx.REGEXP_PROTO) == [some 6, some 0] &&
  chainTags (some ctx.DATE_PROTO) == [some 7, some 0] &&
  chainTags (some ctx.ERROR_PROTO) == [some 8, some 0] &&
  ctx.ARRAY_FUNC.tag == some 9 &&
  chainGoodMaps ctx.OBJECT_PROTO && chainGoodMaps ctx.ARRAY_PROTO

/-- A bare built-in prototype singleton carrying only its identity tag (the
method properties of the real prototypes are irrelevant to every verified
statement, which constrains them only through `wfCtx`). -/
def protoStub (t : ℕ) (pr : Option InterpreterObject) : InterpreterObject :=
  .mk (some t) none [] [] [] pr false false none none

/-- A concrete representative context satisfying `wfCtx`, used by the
witnesses and counterexamples. -/
def defaultCtx : InterpCtx :=
  ⟨protoStub 0 none,
   protoStub 1 (some (protoStub 0 none)),
   protoStub 2 (some (protoStub 0 none)),
   protoStub 3 (some (protoStub 0 none)),
   protoStub 4 (some (protoStub 0 none)),
   protoStub 5 (some (protoStub 0 none)),
   protoStub 6 (some (protoStub 0 none)),
   protoStub 7 (some (protoStub 0 none)),
   protoStub 8 (some (protoStub 0 none)),
   .mk (some 9) (some "Function") [] [] []
     (some (protoStub 1 (some (protoStub 0 none)))) false false none (some 0)⟩

/-- The cycle-free, JSON-serializable host values of the round-trip law:
null, booleans, finite numbers, strings, hole-free host arrays of legal
length, and plain host objects with distinct keys. -/
inductive IsJson : JSValue → Prop
  | null : IsJson .jsNull
  | bool (b : Bool) : IsJson (.boolean b)
  | num (q : ℚ) : IsJson (.number (.rat q))
  | str (s : String) : IsJson (.string s)
  | arr (elems : List JSValue) :
      elems.length ≤ 4294967295 →
      (∀ x ∈ elems, IsJson x) →
      IsJson (.hobj (.array (elems.map some)))
  | obj (fields : List (String × JSValue)) :
      (fields.map Prod.fst).Nodup →
      (∀ p ∈ fields, IsJson p.2) →
      IsJson (.hobj (.plain fields))

/-- The receiver state carried by every `SetResult` alternative. -/
def SetResult.receiver : SetResult → JSValue
  | .ok o => o
  | .setterCall _ o => o
  | .thrown _ o => o

/-- The own `length` slot value of the receiver of a `setProperty` call
(undefined when absent, as read by the Array branch of the source). -/
def arrayLenVal (o : InterpreterObject) : JSValue :=
  (((alookup o.properties "length").map PropAttr.value).getD .undefined)

/-- `name` is bound in no scope of the chain: not an own property of any
non-global scope object, and not visible on the global object (through its
whole prototype chain and the string magic of `hasProperty`). -/
def scopeUnbound (ctx : InterpCtx) (sc : ScopeChain) (name : String) : Bool :=
  match sc with
  | .frame _ obj parent =>
    !(alookup obj.properties name).isSome && scopeUnbound ctx parent name
  | .global _ gobj => !hasProperty ctx gobj name

/-- The state-stack invariant of a running machine: the bottom frame is the
`Program` frame (which `stepProgram` never pops). -/
def MachineWF (s : MachineState) : Prop :=
  ∃ upper bottom, s.stack = upper ++ [bottom] ∧ bottom.isProgram = true

/-- The indexed own properties of a built pseudo array: positions `k`,
`k+1`, ... holding the given values as plain data slots. -/
def idxProps : ℕ → List JSValue → List (String × PropAttr)
  | _, [] => []
  | i, w :: ws => (natToStr i, PropAttr.plain w) :: idxProps (i + 1) ws

/-- The own properties of a built pseudo plain object. -/
def fldProps : List (String × JSValue) → List (String × PropAttr)
  | [] => []
  | (k, w) :: r => (k, PropAttr.plain w) :: fldProps r

/-- The pseudo array object built by the `nativeToPseudo` copy loop after
installing the given values: the `length` slot first (as `createArray` made
it, with its value lifted), then the index slots in order. -/
def arrState (ctx : InterpCtx) (n : ℕ) (ws : List JSValue) : InterpreterObject :=
  .mk none (some "Array")
    (("length", PropAttr.mk (.number (.rat n)) true false false false) :: idxProps 0 ws)
    [] [] (some ctx.ARRAY_PROTO) false false none none

/-- The pseudo plain object built by the `nativeToPseudo` copy loop. -/
def objState (ctx : InterpCtx) (ps : List (String × PropAttr)) : InterpreterObject :=
  .mk none none ps [] [] (some ctx.OBJECT_PROTO) false false none none

/-- `w` is the stable `nativeToPseudo` image of `x` at every sufficient
fuel. -/
def N2P (ctx : InterpCtx) (strict : Bool) (x w : JSValue) : Prop :=
  ∀ fuel, jsSize x ≤ fuel → nativeToPseudo ctx strict fuel x = .ok w

/-- `pseudoToNative` maps `w` back to `x` at every sufficient fuel, whatever
the cycle path. -/
def P2N (ctx : InterpCtx) (x w : JSValue) : Prop :=
  ∀ fuel cycles, jsSize x ≤ fuel → pseudoToNative ctx fuel cycles w = .ok x

/-! ### Basic lemmas about the object model -/

@[simp]
theorem InterpreterObject.tag_mk (t c p g s pr pe ic d nf) :
    (InterpreterObject.mk t c p g s pr pe ic d nf).tag = t := rfl

@[simp]
theorem InterpreterObject.cls_mk (t c p g s pr pe ic d nf) :
    (InterpreterObject.mk t c p g s pr pe ic d nf).cls = c := rfl

@[simp]
theorem InterpreterObject.properties_mk (t c p g s pr pe ic d nf) :
    (InterpreterObject.mk t c p g s pr pe ic d nf).properties = p := rfl

@[simp]
theorem InterpreterObject.getter_mk (t c p g s pr pe ic d nf) :
    (InterpreterObject.mk t c p g s pr pe ic d nf).getter = g := rfl

@[simp]
theorem InterpreterObject.setter_mk (t c p g s pr pe ic d nf) :
    (InterpreterObject.mk t c p g s pr pe ic d nf).setter = s := rfl

@[simp]
theorem InterpreterObject.proto_mk (t c p g s pr pe ic d nf) :
    (InterpreterObject.mk t c p g s pr pe ic d nf).proto = pr := rfl

@[simp]
theorem InterpreterObject.preventExtensions_mk (t c p g s pr pe ic d nf) :
    (InterpreterObject.mk t c p g s pr pe ic d nf).preventExtensions = pe := rfl

@[simp]
theorem InterpreterObject.illegalConstructor_mk (t c p g s pr pe ic d nf) :
    (InterpreterObject.mk t c p g s pr pe ic d nf).illegalConstructor = ic := rfl

@[simp]
theorem InterpreterObject.data_mk (t c p g s pr pe ic d nf) :
    (InterpreterObject.mk t c p g s pr pe ic d nf).data = d := rfl

@[simp]
theorem InterpreterObject.nativeFuncId_mk (t c p g s pr pe ic d nf) :
    (InterpreterObject.mk t c p g s pr pe ic d nf).nativeFuncId = nf := rfl

@[simp]
theorem PropAttr.value_mk (v w e c a) : (PropAttr.mk v w e c a).value = v := rfl

@[simp]
theorem PropAttr.writable_mk (v w e c a) : (PropAttr.mk v w e c a).writable = w := rfl

@[simp]
theorem PropAttr.enumerable_mk (v w e c a) : (PropAttr.mk v w e c a).enumerable = e := rfl

@[simp]
theorem PropAttr.configurable_mk (v w e c a) : (PropAttr.mk v w e c a).configurable = c := rfl

@[simp]
theorem PropAttr.isAccessor_mk (v w e c a) : (PropAttr.mk v w e c a).isAccessor = a := rfl

/-- Host identity through tags, in accessor form. -/
theorem objSame_eq_tags (a b : InterpreterObject) :
    objSame a b = ((a.tag).isSome && a.tag == b.tag) := by
  cases a with
  | mk t c p g s pr pe ic d nf =>
    cases b with
    | mk t2 c2 p2 g2 s2 pr2 pe2 ic2 d2 nf2 =>
      cases t <;> cases t2 <;> simp [objSame]

/-- An untagged (fresh) object is identical to nothing. -/
theorem objSame_none_left (a b : InterpreterObject) (h : a.tag = none) :
    objSame a b = false := by
  rw [objSame_eq_tags, h]; rfl

/-- The `isa` chain walk decided through the identity tags. -/
theorem protoChainContainsObj_eq_chainTags (target : InterpreterObject) (k : ℕ)
    (ht : target.tag = some k) (o : InterpreterObject) :
    protoChainContainsObj target o = (chainTagsObj o).contains (some k) := by
  induction o using chainTagsObj.induct with
  | case1 t c p g s pe ic d nf =>
    rw [protoChainContainsObj, chainTagsObj, objSame_eq_tags, InterpreterObject.tag_mk, ht]
    cases t with
    | none => simp
    | some val =>
      rcases eq_or_ne val k with h | h
      · simp [h]
      · simp [h, Ne.symm h]
  | case2 t c p g s pr pe ic d nf ih =>
    rw [protoChainContainsObj, chainTagsObj, objSame_eq_tags, InterpreterObject.tag_mk, ht, ih]
    cases t with
    | none => simp
    | some val =>
      rcases eq_or_ne val k with h | h
      · simp [h]
      · simp [h, Ne.symm h]

/-- `isa` on an interpreted object, decided through the identity tags. -/
theorem isa_iobj_eq_tags (ctx : InterpCtx) (o target : InterpreterObject) (k : ℕ)
    (ht : target.tag = some k) :
    isa ctx (.iobj o) target =
      (objSame o target || (chainTags o.proto).contains (some k)) := by
  cases hpr : o.proto with
  | none => simp [isa, getPrototype, hpr, chainTags, protoChainContains]
  | some pr =>
    simp [isa, getPrototype, hpr, chainTags,
      protoChainContains, protoChainContainsObj_eq_chainTags target k ht]

/-- A chain with no occurrence of `name` answers undefined. -/
theorem getPropertyWalkObj_absent (name : String) (o : InterpreterObject) :
    hasOwnChainObj name o = false → getPropertyWalkObj name o = .ok .undefined := by
  induction o using chainTagsObj.induct with
  | case1 t c p g s pe ic d nf =>
    intro h
    rw [hasOwnChainObj] at h
    rw [getPropertyWalkObj]
    simp [h]
  | case2 t c p g s pr pe ic d nf ih =>
    intro h
    rw [hasOwnChainObj, Bool.or_eq_false_iff] at h
    rw [getPropertyWalkObj]
    simp [h.1, ih h.2]

/-! ### Decimal property-key lemmas -/

theorem natDigitsAux_eq_digits : ∀ fuel n, n ≤ fuel → natDigitsAux fuel n = Nat.digits 10 n := by
  intro fuel
  induction fuel with
  | zero => intro n hn; interval_cases n; simp [natDigitsAux]
  | succ f ih =>
    intro n hn
    match n with
    | 0 => simp [natDigitsAux]
    | m + 1 =>
      rw [natDigitsAux, Nat.digits_def' (by norm_num : (1:ℕ) < 10) (Nat.succ_pos m)]
      have hdiv : (m + 1) / 10 < m + 1 := Nat.div_lt_self (Nat.succ_pos m) (by norm_num)
      rw [ih ((m + 1) / 10) (by omega)]

theorem char_toNat_ofNat_digit (d : ℕ) (h : d < 10) : (Char.ofNat (48 + d)).toNat = 48 + d := by
  interval_cases d <;> decide

theorem foldl_reverse_ofDigits (l : List ℕ) (a : ℕ) :
    l.reverse.foldl (fun x d => 10 * x + d) a = a * 10 ^ l.length + Nat.ofDigits 10 l := by
  induction l generalizing a with
  | nil => simp
  | cons d t ih =>
    rw [List.reverse_cons, List.foldl_append]
    simp only [List.foldl_cons, List.foldl_nil, ih, Nat.ofDigits_cons, List.length_cons]
    ring

theorem parseDigits_of_all (L : List Char) (hne : L ≠ [])
    (hall : L.all (fun ch => decide (48 ≤ ch.toNat ∧ ch.toNat ≤ 57)) = true) :
    parseDigits L = some (L.foldl (fun a ch => 10 * a + (ch.toNat - 48)) 0) := by
  cases L with
  | nil => exact absurd rfl hne
  | cons c cs =>
    rw [parseDigits]
    rw [if_pos hall]

theorem parseDigits_natToStr (n : ℕ) : parseDigits (natToStr n).data = some n := by
  rcases Nat.eq_zero_or_pos n with h0 | hpos
  · subst h0; decide
  · rw [natToStr, if_neg (Nat.pos_iff_ne_zero.mp hpos)]
    have hdig : natDigitsAux n n = Nat.digits 10 n := natDigitsAux_eq_digits n n le_rfl
    have hlt : ∀ d ∈ Nat.digits 10 n, d < 10 := fun d hd =>
      Nat.digits_lt_base (by norm_num) hd
    have hne : Nat.digits 10 n ≠ [] :=
      Nat.digits_ne_nil_iff_ne_zero.mpr (Nat.pos_iff_ne_zero.mp hpos)
    have hdata : (String.mk ((natDigitsAux n n).reverse.map (fun d => Char.ofNat (48 + d)))).data =
        (natDigitsAux n n).reverse.map (fun d => Char.ofNat (48 + d)) := rfl
    rw [hdata, hdig]
    have hall : ((Nat.digits 10 n).reverse.map (fun d => Char.ofNat (48 + d))).all
        (fun ch => decide (48 ≤ ch.toNat ∧ ch.toNat ≤ 57)) = true := by
      rw [List.all_eq_true]
      intro ch hch
      rw [List.mem_map] at hch
      obtain ⟨d, hd, rfl⟩ := hch
      rw [List.mem_reverse] at hd
      have hd10 := hlt d hd
      rw [decide_eq_true_eq, char_toNat_ofNat_digit d hd10]
      omega
    rw [parseDigits_of_all _ (by simp [hne]) hall]
    have hfold : ((Nat.digits 10 n).reverse.map (fun d => Char.ofNat (48 + d))).foldl
        (fun a c => 10 * a + (c.toNat - 48)) 0 = n := by
      rw [List.foldl_map]
      have hstep : ((Nat.digits 10 n).reverse).foldl
          (fun a d => 10 * a + ((Char.ofNat (48 + d)).toNat - 48)) 0 =
          ((Nat.digits 10 n).reverse).foldl (fun a d => 10 * a + d) 0 := by
        apply List.foldl_ext
        intro a d hd
        rw [List.mem_reverse] at hd
        rw [char_toNat_ofNat_digit d (hlt d hd)]
        omega
      rw [hstep, foldl_reverse_ofDigits]
      simp [Nat.ofDigits_digits]
    rw [hfold]

theorem natToStr_injective (a b : ℕ) (h : natToStr a = natToStr b) : a = b := by
  have ha := parseDigits_natToStr a
  have hb := parseDigits_natToStr b
  rw [h, hb] at ha
  exact (Option.some_injective _ ha).symm

theorem legalArrayIndex_natToStr (n : ℕ) (h : n < 4294967295) :
    legalArrayIndex (natToStr n) = some n := by
  have haux : legalArrayIndex (natToStr n) =
      if natToStr n = natToStr n ∧ n < 4294967295 then some n else none := by
    rw [legalArrayIndex, parseDigits_natToStr]
  rw [haux, if_pos ⟨rfl, h⟩]

theorem natToStr_all_digits (n : ℕ) :
    ∀ c ∈ (natToStr n).data, 48 ≤ c.toNat ∧ c.toNat ≤ 57 := by
  rcases Nat.eq_zero_or_pos n with h0 | hpos
  · subst h0; decide
  · rw [natToStr, if_neg (Nat.pos_iff_ne_zero.mp hpos)]
    intro c hc
    have hc2 : c ∈ (natDigitsAux n n).reverse.map (fun d => Char.ofNat (48 + d)) := hc
    rw [List.mem_map] at hc2
    obtain ⟨d, hd, rfl⟩ := hc2
    rw [List.mem_reverse, natDigitsAux_eq_digits n n le_rfl] at hd
    have := Nat.digits_lt_base (by norm_num) hd
    rw [char_toNat_ofNat_digit d this]
    omega

theorem natToStr_ne_length (n : ℕ) : natToStr n ≠ "length" := by
  intro h
  have hmem : 'l' ∈ (natToStr n).data := by rw [h]; decide
  have := natToStr_all_digits n 'l' hmem
  revert this; decide

/-! ### Association-list lemmas -/

@[simp]
theorem alookup_nil {α : Type} (k : String) : alookup ([] : List (String × α)) k = none := rfl

@[simp]
theorem alookup_cons {α : Type} (a : String) (b : α) (t : List (String × α)) (key : String) :
    alookup ((a, b) :: t) key = if key = a then some b else alookup t key := rfl

theorem alookup_append_right {α : Type} (l l2 : List (String × α)) (k : String)
    (h : alookup l k = none) : alookup (l ++ l2) k = alookup l2 k := by
  induction l with
  | nil => simp
  | cons hd t ih =>
    obtain ⟨hk, hv⟩ := hd
    by_cases hkk : k = hk
    · simp [hkk] at h
    · simp only [alookup_cons, if_neg hkk] at h
      simp [hkk, ih h]

theorem alookup_singleton_self {α : Type} (k : String) (v : α) :
    alookup [(k, v)] k = some v := by
  rw [alookup, if_pos rfl]

theorem alookup_singleton_other {α : Type} (k k2 : String) (v : α) (h : k2 ≠ k) :
    alookup [(k, v)] k2 = none := by
  rw [alookup, if_neg h, alookup]

/-! ### Field updaters and accessors -/

@[simp]
theorem InterpreterObject.tag_withProperties (o : InterpreterObject) (x : List (String × PropAttr)) :
    (o.withProperties x).tag = o.tag := by cases o; rfl

@[simp]
theorem InterpreterObject.cls_withProperties (o : InterpreterObject) (x : List (String × PropAttr)) :
    (o.withProperties x).cls = o.cls := by cases o; rfl

@[simp]
theorem InterpreterObject.properties_withProperties (o : InterpreterObject) (x : List (String × PropAttr)) :
    (o.withProperties x).properties = x := by cases o; rfl

@[simp]
theorem InterpreterObject.getter_withProperties (o : InterpreterObject) (x : List (String × PropAttr)) :
    (o.withProperties x).getter = o.getter := by cases o; rfl

@[simp]
theorem InterpreterObject.setter_withProperties (o : InterpreterObject) (x : List (String × PropAttr)) :
    (o.withProperties x).setter = o.setter := by cases o; rfl

@[simp]
theorem InterpreterObject.proto_withProperties (o : InterpreterObject) (x : List (String × PropAttr)) :
    (o.withProperties x).proto = o.proto := by cases o; rfl

@[simp]
theorem InterpreterObject.preventExtensions_withProperties (o : InterpreterObject) (x : List (String × PropAttr)) :
    (o.withProperties x).preventExtensions = o.preventExtensions := by cases o; rfl

@[simp]
theorem InterpreterObject.illegalConstructor_withProperties (o : InterpreterObject) (x : List (String × PropAttr)) :
    (o.withProperties x).illegalConstructor = o.illegalConstructor := by cases o; rfl

@[simp]
theorem InterpreterObject.data_withProperties (o : InterpreterObject) (x : List (String × PropAttr)) :
    (o.withProperties x).data = o.data := by cases o; rfl

@[simp]
theorem InterpreterObject.nativeFuncId_withProperties (o : InterpreterObject) (x : List (String × PropAttr)) :
    (o.withProperties x).nativeFuncId = o.nativeFuncId := by cases o; rfl

@[simp]
theorem InterpreterObject.tag_withGetter (o : InterpreterObject) (x : List (String × JSValue)) :
    (o.withGetter x).tag = o.tag := by cases o; rfl

@[simp]
theorem InterpreterObject.cls_withGetter (o : InterpreterObject) (x : List (String × JSValue)) :
    (o.withGetter x).cls = o.cls := by cases o; rfl

@[simp]
theorem InterpreterObject.properties_withGetter (o : InterpreterObject) (x : List (String × JSValue)) :
    (o.withGetter x).properties = o.properties := by cases o; rfl

@[simp]
theorem InterpreterObject.getter_withGetter (o : InterpreterObject) (x : List (String × JSValue)) :
    (o.withGetter x).getter = x := by cases o; rfl

@[simp]
theorem InterpreterObject.setter_withGetter (o : InterpreterObject) (x : List (String × JSValue)) :
    (o.withGetter x).setter = o.setter := by cases o; rfl

@[simp]
theorem InterpreterObject.proto_withGetter (o : InterpreterObject) (x : List (String × JSValue)) :
    (o.withGetter x).proto = o.proto := by cases o; rfl

@[simp]
theorem InterpreterObject.preventExtensions_withGetter (o : InterpreterObject) (x : List (String × JSValue)) :
    (o.withGetter x).preventExtensions = o.preventExtensions := by cases o; rfl

@[simp]
theorem InterpreterObject.illegalConstructor_withGetter (o : InterpreterObject) (x : List (String × JSValue)) :
    (o.withGetter x).illegalConstructor = o.illegalConstructor := by cases o; rfl

@[simp]
theorem InterpreterObject.data_withGetter (o : InterpreterObject) (x : List (String × JSValue)) :
    (o.withGetter x).data = o.data := by cases o; rfl

@[simp]
theorem InterpreterObject.nativeFuncId_withGetter (o : InterpreterObject) (x : List (String × JSValue)) :
    (o.withGetter x).nativeFuncId = o.nativeFuncId := by cases o; rfl

@[simp]
theorem InterpreterObject.tag_withSetter (o : InterpreterObject) (x : List (String × JSValue)) :
    (o.withSetter x).tag = o.tag := by cases o; rfl

@[simp]
theorem InterpreterObject.cls_withSetter (o : InterpreterObject) (x : List (String × JSValue)) :
    (o.withSetter x).cls = o.cls := by cases o; rfl

@[simp]
theorem InterpreterObject.properties_withSetter (o : InterpreterObject) (x : List (String × JSValue)) :
    (o.withSetter x).properties = o.properties := by cases o; rfl

@[simp]
theorem InterpreterObject.getter_withSetter (o : InterpreterObject) (x : List (String × JSValue)) :
    (o.withSetter x).getter = o.getter := by cases o; rfl

@[simp]
theorem InterpreterObject.setter_withSetter (o : InterpreterObject) (x : List (String × JSValue)) :
    (o.withSetter x).setter = x := by cases o; rfl

@[simp]
theorem InterpreterObject.proto_withSetter (o : InterpreterObject) (x : List (String × JSValue)) :
    (o.withSetter x).proto = o.proto := by cases o; rfl

@[simp]
theorem InterpreterObject.preventExtensions_withSetter (o : InterpreterObject) (x : List (String × JSValue)) :
    (o.withSetter x).preventExtensions = o.preventExtensions := by cases o; rfl

@[simp]
theorem InterpreterObject.illegalConstructor_withSetter (o : InterpreterObject) (x : List (String × JSValue)) :
    (o.withSetter x).illegalConstructor = o.illegalConstructor := by cases o; rfl

@[simp]
theorem InterpreterObject.data_withSetter (o : InterpreterObject) (x : List (String × JSValue)) :
    (o.withSetter x).data = o.data := by cases o; rfl

@[simp]
theorem InterpreterObject.nativeFuncId_withSetter (o : InterpreterObject) (x : List (String × JSValue)) :
    (o.withSetter x).nativeFuncId = o.nativeFuncId := by cases o; rfl

@[simp]
theorem InterpreterObject.tag_withCls (o : InterpreterObject) (x : Option String) :
    (o.withCls x).tag = o.tag := by cases o; rfl

@[simp]
theorem InterpreterObject.cls_withCls (o : InterpreterObject) (x : Option String) :
    (o.withCls x).cls = x := by cases o; rfl

@[simp]
theorem InterpreterObject.properties_withCls (o : InterpreterObject) (x : Option String) :
    (o.withCls x).properties = o.properties := by cases o; rfl

@[simp]
theorem InterpreterObject.getter_withCls (o : InterpreterObject) (x : Option String) :
    (o.withCls x).getter = o.getter := by cases o; rfl

@[simp]
theorem InterpreterObject.setter_withCls (o : InterpreterObject) (x : Option String) :
    (o.withCls x).setter = o.setter := by cases o; rfl

@[simp]
theorem InterpreterObject.proto_withCls (o : InterpreterObject) (x : Option String) :
    (o.withCls x).proto = o.proto := by cases o; rfl

@[simp]
theorem InterpreterObject.preventExtensions_withCls (o : InterpreterObject) (x : Option String) :
    (o.withCls x).preventExtensions = o.preventExtensions := by cases o; rfl

@[simp]
theorem InterpreterObject.illegalConstructor_withCls (o : InterpreterObject) (x : Option String) :
    (o.withCls x).illegalConstructor = o.illegalConstructor := by cases o; rfl

@[simp]
theorem InterpreterObject.data_withCls (o : InterpreterObject) (x : Option String) :
    (o.withCls x).data = o.data := by cases o; rfl

@[simp]
theorem InterpreterObject.nativeFuncId_withCls (o : InterpreterObject) (x : Option String) :
    (o.withCls x).nativeFuncId = o.nativeFuncId := by cases o; rfl

@[simp]
theorem InterpreterObject.tag_withData (o : InterpreterObject) (x : Option ObjData) :
    (o.withData x).tag = o.tag := by cases o; rfl

@[simp]
theorem InterpreterObject.cls_withData (o : InterpreterObject) (x : Option ObjData) :
    (o.withData x).cls = o.cls := by cases o; rfl

@[simp]
theorem InterpreterObject.properties_withData (o : InterpreterObject) (x : Option ObjData) :
    (o.withData x).properties = o.properties := by cases o; rfl

@[simp]
theorem InterpreterObject.getter_withData (o : InterpreterObject) (x : Option ObjData) :
    (o.withData x).getter = o.getter := by cases o; rfl

@[simp]
theorem InterpreterObject.setter_withData (o : InterpreterObject) (x : Option ObjData) :
    (o.withData x).setter = o.setter := by cases o; rfl

@[simp]
theorem InterpreterObject.proto_withData (o : InterpreterObject) (x : Option ObjData) :
    (o.withData x).proto = o.proto := by cases o; rfl

@[simp]
theorem InterpreterObject.preventExtensions_withData (o : InterpreterObject) (x : Option ObjData) :
    (o.withData x).preventExtensions = o.preventExtensions := by cases o; rfl

@[simp]
theorem InterpreterObject.illegalConstructor_withData (o : InterpreterObject) (x : Option ObjData) :
    (o.withData x).illegalConstructor = o.illegalConstructor := by cases o; rfl

@[simp]
theorem InterpreterObject.data_withData (o : InterpreterObject) (x : Option ObjData) :
    (o.withData x).data = x := by cases o; rfl

@[simp]
theorem InterpreterObject.nativeFuncId_withData (o : InterpreterObject) (x : Option ObjData) :
    (o.withData x).nativeFuncId = o.nativeFuncId := by cases o; rfl

@[simp]
theorem InterpreterObject.tag_withNativeFuncId (o : InterpreterObject) (x : Option ℕ) :
    (o.withNativeFuncId x).tag = o.tag := by cases o; rfl

@[simp]
theorem InterpreterObject.cls_withNativeFuncId (o : InterpreterObject) (x : Option ℕ) :
    (o.withNativeFuncId x).cls = o.cls := by cases o; rfl

@[simp]
theorem InterpreterObject.properties_withNativeFuncId (o : InterpreterObject) (x : Option ℕ) :
    (o.withNativeFuncId x).properties = o.properties := by cases o; rfl

@[simp]
theorem InterpreterObject.getter_withNativeFuncId (o : InterpreterObject) (x : Option ℕ) :
    (o.withNativeFuncId x).getter = o.getter := by cases o; rfl

@[simp]
theorem InterpreterObject.setter_withNativeFuncId (o : InterpreterObject) (x : Option ℕ) :
    (o.withNativeFuncId x).setter = o.setter := by cases o; rfl

@[simp]
theorem InterpreterObject.proto_withNativeFuncId (o : InterpreterObject) (x : Option ℕ) :
    (o.withNativeFuncId x).proto = o.proto := by cases o; rfl

@[simp]
theorem InterpreterObject.preventExtensions_withNativeFuncId (o : InterpreterObject) (x : Option ℕ) :
    (o.withNativeFuncId x).preventExtensions = o.preventExtensions := by cases o; rfl

@[simp]
theorem InterpreterObject.illegalConstructor_withNativeFuncId (o : InterpreterObject) (x : Option ℕ) :
    (o.withNativeFuncId x).illegalConstructor = o.illegalConstructor := by cases o; rfl

@[simp]
theorem InterpreterObject.data_withNativeFuncId (o : InterpreterObject) (x : Option ℕ) :
    (o.withNativeFuncId x).data = o.data := by cases o; rfl

@[simp]
theorem InterpreterObject.nativeFuncId_withNativeFuncId (o : InterpreterObject) (x : Option ℕ) :
    (o.withNativeFuncId x).nativeFuncId = x := by cases o; rfl

@[simp]
theorem InterpreterObject.tag_withIllegalConstructor (o : InterpreterObject) (x : Bool) :
    (o.withIllegalConstructor x).tag = o.tag := by cases o; rfl

@[simp]
theorem InterpreterObject.cls_withIllegalConstructor (o : InterpreterObject) (x : Bool) :
    (o.withIllegalConstructor x).cls = o.cls := by cases o; rfl

@[simp]
theorem InterpreterObject.properties_withIllegalConstructor (o : InterpreterObject) (x : Bool) :
    (o.withIllegalConstructor x).properties = o.properties := by cases o; rfl

@[simp]
theorem InterpreterObject.getter_withIllegalConstructor (o : InterpreterObject) (x : Bool) :
    (o.withIllegalConstructor x).getter = o.getter := by cases o; rfl

@[simp]
theorem InterpreterObject.setter_withIllegalConstructor (o : InterpreterObject) (x : Bool) :
    (o.withIllegalConstructor x).setter = o.setter := by cases o; rfl

@[simp]
theorem InterpreterObject.proto_withIllegalConstructor (o : InterpreterObject) (x : Bool) :
    (o.withIllegalConstructor x).proto = o.proto := by cases o; rfl

@[simp]
theorem InterpreterObject.preventExtensions_withIllegalConstructor (o : InterpreterObject) (x : Bool) :
    (o.withIllegalConstructor x).preventExtensions = o.preventExtensions := by cases o; rfl

@[simp]
theorem InterpreterObject.illegalConstructor_withIllegalConstructor (o : InterpreterObject) (x : Bool) :
    (o.withIllegalConstructor x).illegalConstructor = x := by cases o; rfl

@[simp]
theorem InterpreterObject.data_withIllegalConstructor (o : InterpreterObject) (x : Bool) :
    (o.withIllegalConstructor x).data = o.data := by cases o; rfl

@[simp]
theorem InterpreterObject.nativeFuncId_withIllegalConstructor (o : InterpreterObject) (x : Bool) :
    (o.withIllegalConstructor x).nativeFuncId = o.nativeFuncId := by cases o; rfl

/-! ### Property-walk helper lemmas -/

theorem hasOwnChainObj_false_own (name : String) (o : InterpreterObject)
    (h : hasOwnChainObj name o = false) : alookup o.properties name = none := by
  cases o with
  | mk t c p g s pr pe ic d nf =>
    cases pr with
    | none =>
      rw [hasOwnChainObj] at h
      simpa using Option.not_isSome_iff_eq_none.mp (by simp [h])
    | some q =>
      rw [hasOwnChainObj, Bool.or_eq_false_iff] at h
      simpa using Option.not_isSome_iff_eq_none.mp (by simp [h.1])

theorem findDefObjFrom_absent (r : InterpreterObject) (name : String) (o : InterpreterObject)
    (h : hasOwnChainObj name o = false) : findDefObjFrom r name o = r := by
  induction o using chainTagsObj.induct with
  | case1 t c p g s pe ic d nf =>
    rw [hasOwnChainObj] at h
    rw [findDefObjFrom, if_neg (by simp [h])]
  | case2 t c p g s pr pe ic d nf ih =>
    rw [hasOwnChainObj, Bool.or_eq_false_iff] at h
    rw [findDefObjFrom, if_neg (by simp [h.1]), ih h.2]

theorem hasProperty_false_parts (ctx : InterpCtx) (o : InterpreterObject) (name : String)
    (h : hasProperty ctx o name = false) :
    (name == "length" && isa ctx (.iobj o) ctx.STRING_PROTO) = false ∧
    (isa ctx (.iobj o) ctx.STRING_PROTO &&
      (match legalArrayIndex name with
       | some n => decide (n < (jsDisplayFull (.iobj o)).length)
       | none => false)) = false ∧
    hasOwnChainObj name o = false := by
  rw [hasProperty] at h
  by_cases h1 : (name == "length" && isa ctx (.iobj o) ctx.STRING_PROTO) = true
  · rw [if_pos h1] at h; cases h
  · have h1f : (name == "length" && isa ctx (.iobj o) ctx.STRING_PROTO) = false := by
      cases hc : (name == "length" && isa ctx (.iobj o) ctx.STRING_PROTO)
      · rfl
      · exact absurd hc h1
    rw [if_neg h1] at h
    by_cases h2 : (isa ctx (.iobj o) ctx.STRING_PROTO &&
        (match legalArrayIndex name with
         | some n => decide (n < (jsDisplayFull (.iobj o)).length)
         | none => false)) = true
    · rw [if_pos h2] at h; cases h
    · have h2f : (isa ctx (.iobj o) ctx.STRING_PROTO &&
          (match legalArrayIndex name with
           | some n => decide (n < (jsDisplayFull (.iobj o)).length)
           | none => false)) = false := by
        cases hc : (isa ctx (.iobj o) ctx.STRING_PROTO &&
            (match legalArrayIndex name with
             | some n => decide (n < (jsDisplayFull (.iobj o)).length)
             | none => false))
        · rfl
        · exact absurd hc h2
      rw [if_neg h2] at h
      exact ⟨h1f, h2f, h⟩

theorem setProperty_assign_fresh (ctx : InterpCtx) (strict : Bool) (o : InterpreterObject)
    (name : String) (v : JSValue)
    (hguard : (isa ctx (.iobj o) ctx.STRING_PROTO &&
      (name == "length" ||
       (match legalArrayIndex name with
        | some n => decide (n < (jsDisplayFull (.iobj o)).length)
        | none => false))) = false)
    (harr : (o.cls == some "Array") = false)
    (hext : o.preventExtensions = false)
    (hown : alookup o.properties name = none)
    (hset : alookup (findDefObj o name (some o)).setter name = none)
    (hget : alookup (findDefObj o name (some o)).getter name = none) :
    setProperty ctx strict (.iobj o) name (some v) none =
      .ok (.iobj (o.withProperties (o.properties ++ [(name, PropAttr.plain v)]))) := by
  have hha : hostAssign o.properties name v =
      some (o.properties ++ [(name, PropAttr.plain v)]) := by
    rw [hostAssign, hown]
  simp [setProperty, setPropertyArray, setPropertyTail, hguard, harr, hext, hown, hset, hget, hha]

/-! ### Context facts and fresh-object define steps -/

theorem chainTagsObj_head (o : InterpreterObject) : ∃ l, chainTagsObj o = o.tag :: l := by
  cases o with
  | mk t c p g s pr pe ic d nf => cases pr <;> exact ⟨_, rfl⟩

theorem tag_of_chainTagsObj (o : InterpreterObject) (t : Option ℕ) (l : List (Option ℕ))
    (h : chainTagsObj o = t :: l) : o.tag = t := by
  obtain ⟨l2, hl⟩ := chainTagsObj_head o
  rw [hl] at h
  injection h

theorem isa_fresh_proto (ctx : InterpCtx) (o : InterpreterObject) (target : InterpreterObject)
    (k : ℕ) (ht : target.tag = some k) (hto : o.tag = none) :
    isa ctx (.iobj o) target = (chainTags o.proto).contains (some k) := by
  rw [isa_iobj_eq_tags ctx o target k ht, objSame_none_left _ _ hto, Bool.false_or]

theorem wfCtx_parts (ctx : InterpCtx) (h : wfCtx ctx = true) :
    chainTagsObj ctx.OBJECT_PROTO = [some 0] ∧
    chainTagsObj ctx.FUNCTION_PROTO = [some 1, some 0] ∧
    chainTagsObj ctx.ARRAY_PROTO = [some 2, some 0] ∧
    chainTagsObj ctx.STRING_PROTO = [some 3, some 0] ∧
    chainTagsObj ctx.NUMBER_PROTO = [some 4, some 0] ∧
    chainTagsObj ctx.BOOLEAN_PROTO = [some 5, some 0] ∧
    chainTagsObj ctx.REGEXP_PROTO = [some 6, some 0] ∧
    chainTagsObj ctx.DATE_PROTO = [some 7, some 0] ∧
    chainTagsObj ctx.ERROR_PROTO = [some 8, some 0] ∧
    ctx.ARRAY_FUNC.tag = some 9 ∧
    chainGoodMaps ctx.OBJECT_PROTO = true ∧
    chainGoodMaps ctx.ARRAY_PROTO = true := by
  rw [wfCtx] at h
  simp only [Bool.and_eq_true, beq_iff_eq] at h
  obtain ⟨⟨⟨⟨⟨⟨⟨⟨⟨⟨⟨h1, h2⟩, h3⟩, h4⟩, h5⟩, h6⟩, h7⟩, h8⟩, h9⟩, h10⟩, h11⟩, h12⟩ := h
  exact ⟨h1, h2, h3, h4, h5, h6, h7, h8, h9, h10, h11, h12⟩

theorem except_bind_ok {ε α β : Type} (a : α) (f : α → Except ε β) :
    (Except.ok a : Except ε α) >>= f = f a := rfl

theorem setPropIgnore_define_fresh (ctx : InterpCtx) (strict : Bool)
    (t : Option ℕ) (c : Option String) (p : List (String × PropAttr))
    (pr : Option InterpreterObject) (ic : Bool) (d : Option ObjData) (nf : Option ℕ)
    (name : String) (v : JSValue) (cfg en wr : Option Bool)
    (hguard : (isa ctx (.iobj (.mk t c p [] [] pr false ic d nf)) ctx.STRING_PROTO &&
      (name == "length" ||
       (match legalArrayIndex name with
        | some n => decide (n < (jsDisplayFull (.iobj (.mk t c p [] [] pr false ic d nf))).length)
        | none => false))) = false)
    (harr : (c == some "Array") = false)
    (hown : alookup p name = none) :
    setPropIgnore ctx strict (.mk t c p [] [] pr false ic d nf) name (some v)
        (some ⟨none, none, cfg, en, wr, none⟩) =
      .ok (.mk t c
        (p ++ [(name, PropAttr.mk v (wr.getD false) (en.getD false) (cfg.getD false) false)])
        [] [] pr false ic d nf) := by
  simp only [setPropIgnore, setProperty, setPropertyArray, setPropertyTail, hostDefine,
    eraseAssoc, InterpreterObject.withGetter, InterpreterObject.withSetter,
    InterpreterObject.withProperties, InterpreterObject.cls_mk,
    InterpreterObject.preventExtensions_mk, InterpreterObject.properties_mk,
    InterpreterObject.getter_mk, InterpreterObject.setter_mk,
    hguard, harr, hown, Option.isSome_none, Option.isSome_some, Option.getD_some,
    Option.getD_none, Bool.false_and, Bool.and_false, Bool.false_or, Bool.or_false,
    Bool.or_true, Bool.true_or, Bool.false_eq_true, if_false, List.filter_nil,
    Bool.not_false, Bool.not_true, reduceIte]

/-! ### Claim C9: world separation of the host bridge -/

/-- C9: the host bridge rejects values from the wrong world — `nativeToPseudo`
throws the host error `Object is already pseudo` on every `InterpreterObject`,
`pseudoToNative` throws the host error `Object is not pseudo` on every host
object or host function, and undefined, null, booleans, numbers and strings
pass through both directions unchanged. -/
theorem c9_bridge_world_separation (ctx : InterpCtx) (strict : Bool) (fuel : ℕ)
    (cycles : List InterpreterObject) :
    (∀ o : InterpreterObject,
      nativeToPseudo ctx strict fuel (.iobj o) = .error (.host "Object is already pseudo")) ∧
    (∀ h : HostObj,
      pseudoToNative ctx fuel cycles (.hobj h) = .error (.host "Object is not pseudo")) ∧
    nativeToPseudo ctx strict fuel .undefined = .ok .undefined ∧
    nativeToPseudo ctx strict fuel .jsNull = .ok .jsNull ∧
    (∀ b, nativeToPseudo ctx strict fuel (.boolean b) = .ok (.boolean b)) ∧
    (∀ n, nativeToPseudo ctx strict fuel (.number n) = .ok (.number n)) ∧
    (∀ s, nativeToPseudo ctx strict fuel (.string s) = .ok (.string s)) ∧
    pseudoToNative ctx fuel cycles .undefined = .ok .undefined ∧
    pseudoToNative ctx fuel cycles .jsNull = .ok .jsNull ∧
    (∀ b, pseudoToNative ctx fuel cycles (.boolean b) = .ok (.boolean b)) ∧
    (∀ n, pseudoToNative ctx fuel cycles (.number n) = .ok (.number n)) ∧
    (∀ s, pseudoToNative ctx fuel cycles (.string s) = .ok (.string s)) := by
  refine ⟨?_, ?_, ?_, ?_, ?_, ?_, ?_, ?_, ?_, ?_, ?_, ?_⟩ <;>
    first
      | (intro x; cases fuel <;> rfl)
      | (cases fuel <;> rfl)

/-! ### Claim C2: constructor completion and null returns -/

/-- C2 counterexample: with `isConstructor` set and a completed value of
null — whose host `typeof` is `'object'` — the completion branch of
`stepCallExpression` delivers null itself and not the allocated `this`,
contradicting the claim that every non-object return (null included) is
replaced by `this`. -/
theorem c2_counterexample :
    stepCallExpressionFinish ⟨true, .jsNull, .iobj (protoStub 0 none)⟩ = .jsNull ∧
      JSValue.jsNull ≠ .iobj (protoStub 0 none) :=
  ⟨rfl, fun h => JSValue.noConfusion h⟩

/-- C2 amended: after a constructor frame completes, the allocated `this`
replaces the completed value exactly when the value's host `typeof` is not
`'object'`: undefined, booleans, numbers and strings are replaced, while
null and interpreted objects — `typeof null` being `'object'` — are
delivered verbatim. -/
theorem c2_amended (st : CallFrameEnd) (h : st.isConstructor = true) :
    stepCallExpressionFinish st =
      (if jsTypeof st.value == "object" then st.value else st.funcThis) ∧
    (st.value = .jsNull → stepCallExpressionFinish st = .jsNull) ∧
    (∀ o : InterpreterObject, st.value = .iobj o → stepCallExpressionFinish st = .iobj o) ∧
    (st.value = .undefined → stepCallExpressionFinish st = st.funcThis) ∧
    (∀ b, st.value = .boolean b → stepCallExpressionFinish st = st.funcThis) ∧
    (∀ n, st.value = .number n → stepCallExpressionFinish st = st.funcThis) ∧
    (∀ s, st.value = .string s → stepCallExpressionFinish st = st.funcThis) := by
  have e : stepCallExpressionFinish st =
      if st.isConstructor && !(jsTypeof st.value == "object") then st.funcThis
      else st.value := rfl
  refine ⟨?_, ?_, ?_, ?_, ?_, ?_, ?_⟩
  · rw [e, h]
    cases hv : st.value
    case hobj h2 => cases h2 <;> rfl
    all_goals rfl
  · intro hv; rw [e, h, hv]; rfl
  · intro o hv; rw [e, h, hv]; rfl
  · intro hv; rw [e, h, hv]; rfl
  · intro b hv; rw [e, h, hv]; rfl
  · intro n hv; rw [e, h, hv]; rfl
  · intro s hv; rw [e, h, hv]; rfl

/-- Witness: a constructor frame completing with undefined delivers the
allocated `this`. -/
theorem c2_amended_witness :
    stepCallExpressionFinish ⟨true, .undefined, .boolean true⟩ = .boolean true :=
  (c2_amended ⟨true, .undefined, .boolean true⟩ rfl).2.2.2.1 rfl

/-! ### Claim C5: missing identifiers and typeof -/

/-- C5: reading a name bound in no scope on the chain raises the interpreted
ReferenceError `<name> is not defined`, except that when the immediately
enclosing node (the stack top after `stepIdentifier` pops itself) is a unary
`typeof` expression the lookup answers undefined without error. -/
theorem c5_missing_name_typeof (ctx : InterpCtx) (sc : ScopeChain) (prevNode : PrevNode)
    (name : String) (h : scopeUnbound ctx sc name = true) :
    getValueFromScope ctx sc prevNode name =
      if prevNode.nodeType == "UnaryExpression" && prevNode.operator == "typeof"
      then .ok .undefined
      else .thrown (.interp .referenceError (name ++ " is not defined")) := by
  induction sc with
  | global s gobj =>
    rw [scopeUnbound, Bool.not_eq_true'] at h
    simp [getValueFromScope, h]
  | frame s obj parent ih =>
    rw [scopeUnbound, Bool.and_eq_true, Bool.not_eq_true'] at h
    obtain ⟨h1, h2⟩ := h
    have h1n : alookup obj.properties name = none :=
      Option.not_isSome_iff_eq_none.mp (by simp [h1])
    have e : getValueFromScope ctx (.frame s obj parent) prevNode name =
        match alookup obj.properties name with
        | some a => .ok a.value
        | none => getValueFromScope ctx parent prevNode name := rfl
    rw [e, h1n]
    exact ih h2

/-- Witness: an unbound name under an enclosing `typeof` reads as
undefined. -/
theorem c5_missing_name_typeof_witness :
    getValueFromScope defaultCtx (.global false (protoStub 0 none))
      ⟨"UnaryExpression", "typeof"⟩ "x" = .ok .undefined := by
  have h := c5_missing_name_typeof defaultCtx (.global false (protoStub 0 none))
    ⟨"UnaryExpression", "typeof"⟩ "x" rfl
  simpa using h

/-! ### Claim C8: getProperty on null, undefined and missing names -/

/-- C8: `getProperty` on undefined or null throws the interpreted TypeError
naming the property and the receiver, and on an interpreted object owning
`name` nowhere along its prototype chain (the string length/index magic not
applying to it) it answers undefined without error. -/
theorem c8_get_missing (ctx : InterpCtx) (name : String) (o : InterpreterObject)
    (habs : hasOwnChainObj name o = false)
    (hstr : isa ctx (.iobj o) ctx.STRING_PROTO = false) :
    getProperty ctx .undefined name =
      .thrown (.interp .typeError ("Cannot read property '" ++ name ++ "' of undefined")) ∧
    getProperty ctx .jsNull name =
      .thrown (.interp .typeError ("Cannot read property '" ++ name ++ "' of null")) ∧
    getProperty ctx (.iobj o) name = .ok .undefined := by
  refine ⟨rfl, rfl, ?_⟩
  have e : getProperty ctx (.iobj o) name =
      (if name == "length" && isa ctx (.iobj o) ctx.STRING_PROTO then
        .ok (.number (.rat ((jsDisplayFull (.iobj o)).length)))
      else if firstCharBelow64 name && isa ctx (.iobj o) ctx.STRING_PROTO &&
          (match legalArrayIndex name with
           | some n => decide (n < (jsDisplayFull (.iobj o)).length)
           | none => false) then
        .ok (.string (charAtStr (jsDisplayFull (.iobj o)) ((legalArrayIndex name).getD 0)))
      else getPropertyWalk name (some o)) := rfl
  rw [e]
  simp only [hstr, Bool.and_false, Bool.false_and, Bool.false_and, if_false]
  exact getPropertyWalkObj_absent name o habs

/-- Witness: reading a fresh name off a bare object answers undefined. -/
theorem c8_get_missing_witness :
    getProperty defaultCtx (.iobj (protoStub 0 none)) "x" = .ok .undefined :=
  (c8_get_missing defaultCtx "x" (protoStub 0 none) rfl rfl).2.2

/-! ### Claim C7: the state stack at termination -/

/-- C7 counterexample: running the empty program, one successful `step()`
marks the `Program` frame done and the next call reports termination — yet
the state stack still holds that frame, so the stack is not empty at
termination and non-emptiness is not equivalent to non-termination. -/
theorem c7_counterexample :
    machineStep defaultCtx (initMachine (.program [])) =
      .ran ⟨[⟨.program [], true, false, .undefined, []⟩], .undefined⟩ ∧
    machineStep defaultCtx ⟨[⟨.program [], true, false, .undefined, []⟩], .undefined⟩ =
      .finished ⟨[⟨.program [], true, false, .undefined, []⟩], .undefined⟩ ∧
    ([(⟨.program [], true, false, .undefined, []⟩ : MFrame)] : List MFrame) ≠ [] :=
  ⟨rfl, rfl, by simp⟩

/-- C7 amended: the bottom `Program` frame is never popped, so from any
well-formed state every successful `step()` leaves a non-empty stack (and
preserves well-formedness), and at termination the stack is still
non-empty — termination is signalled by the finished `Program` frame, not by
an empty stack. -/
theorem c7_amended (ctx : InterpCtx) (s : MachineState) (h : MachineWF s) :
    (∀ s', machineStep ctx s = .ran s' → MachineWF s' ∧ s'.stack ≠ []) ∧
    (∀ s', machineStep ctx s = .finished s' → s'.stack ≠ []) := by
  obtain ⟨upper, bottom, hs, hb⟩ := h
  obtain ⟨stack, value⟩ := s
  replace hs : stack = upper ++ [bottom] := hs
  subst hs
  cases upper with
  | nil =>
    obtain ⟨bnode, bdone, bdoneSub, bvalue, bprog⟩ := bottom
    cases bnode with
    | expressionStatement e => simp [MFrame.isProgram] at hb
    | literal v => simp [MFrame.isProgram] at hb
    | program body =>
      cases bdone with
      | true =>
        refine ⟨fun s' h' => ?_, fun s' h' => ?_⟩
        · simp only [machineStep, List.nil_append] at h'
          cases h'
        · simp only [machineStep, List.nil_append] at h'
          cases h'
          simp
      | false =>
        cases bprog with
        | nil =>
          refine ⟨fun s' h' => ?_, fun s' h' => ?_⟩
          · simp only [machineStep, List.nil_append] at h'
            cases h'
            exact ⟨⟨[], _, rfl, rfl⟩, by simp⟩
          · simp only [machineStep, List.nil_append] at h'
            cases h'
        | cons e es =>
          refine ⟨fun s' h' => ?_, fun s' h' => ?_⟩
          · simp only [machineStep, List.nil_append] at h'
            cases h'
            exact ⟨⟨[MFrame.fresh e], _, rfl, rfl⟩, by simp⟩
          · simp only [machineStep, List.nil_append] at h'
            cases h'
  | cons u us =>
    obtain ⟨unode, udone, udoneSub, uvalue, uprog⟩ := u
    cases unode with
    | program body =>
      cases udone with
      | true =>
        refine ⟨fun s' h' => ?_, fun s' h' => ?_⟩
        · simp only [machineStep, List.cons_append] at h'
          cases h'
        · simp only [machineStep, List.cons_append] at h'
          cases h'
          simp
      | false =>
        cases uprog with
        | nil =>
          refine ⟨fun s' h' => ?_, fun s' h' => ?_⟩
          · simp only [machineStep, List.cons_append] at h'
            cases h'
            exact ⟨⟨_ :: us, bottom, rfl, hb⟩, by simp⟩
          · simp only [machineStep, List.cons_append] at h'
            cases h'
        | cons e es =>
          refine ⟨fun s' h' => ?_, fun s' h' => ?_⟩
          · simp only [machineStep, List.cons_append] at h'
            cases h'
            exact ⟨⟨MFrame.fresh e :: _ :: us, bottom, rfl, hb⟩, by simp⟩
          · simp only [machineStep, List.cons_append] at h'
            cases h'
    | expressionStatement expr =>
      cases udoneSub with
      | false =>
        refine ⟨fun s' h' => ?_, fun s' h' => ?_⟩
        · simp only [machineStep, List.cons_append] at h'
          cases h'
          exact ⟨⟨MFrame.fresh expr :: _ :: us, bottom, rfl, hb⟩, by simp⟩
        · simp only [machineStep, List.cons_append] at h'
          cases h'
      | true =>
        refine ⟨fun s' h' => ?_, fun s' h' => ?_⟩
        · simp only [machineStep, List.cons_append] at h'
          cases h'
          exact ⟨⟨us, bottom, rfl, hb⟩, by simp⟩
        · simp only [machineStep, List.cons_append] at h'
          cases h'
    | literal v =>
      rcases hc : (match v with
        | JSValue.hobj (.regexp src flags li) =>
          (do
            let pr := createObjectProto ctx (some ctx.REGEXP_PROTO)
            let pr ← populateRegExp ctx false pr src flags li
            return JSValue.iobj pr : Except Thrown JSValue)
        | w => (.ok w : Except Thrown JSValue)) with e | w
      · refine ⟨fun s' h' => ?_, fun s' h' => ?_⟩
        · simp only [machineStep, List.cons_append, hc] at h'
          cases h'
        · simp only [machineStep, List.cons_append, hc] at h'
          cases h'
      · cases us with
        | nil =>
          refine ⟨fun s' h' => ?_, fun s' h' => ?_⟩
          · simp only [machineStep, List.cons_append, List.nil_append, hc] at h'
            cases h'
            exact ⟨⟨[], _, rfl, hb⟩, by simp⟩
          · simp only [machineStep, List.cons_append, List.nil_append, hc] at h'
            cases h'
        | cons p ps =>
          refine ⟨fun s' h' => ?_, fun s' h' => ?_⟩
          · simp only [machineStep, List.cons_append, hc] at h'
            cases h'
            exact ⟨⟨_ :: ps, bottom, rfl, hb⟩, by simp⟩
          · simp only [machineStep, List.cons_append, hc] at h'
            cases h'

/-- Witness: the first step of the empty program leaves its `Program` frame
on the stack. -/
theorem c7_amended_witness :
    MachineWF (initMachine (.program [])) ∧
      (⟨[⟨.program [], true, false, .undefined, []⟩], .undefined⟩ : MachineState).stack ≠ [] :=
  ⟨⟨[], ⟨.program [], false, false, .undefined, []⟩, rfl, rfl⟩,
   ((c7_amended defaultCtx (initMachine (.program []))
       ⟨[], ⟨.program [], false, false, .undefined, []⟩, rfl, rfl⟩).1
     ⟨[⟨.program [], true, false, .undefined, []⟩], .undefined⟩ rfl).2⟩

/-! ### Claim C6: implicit global creation and strict mode -/

/-- The walk of `setValueToScope` on a name bound nowhere, with the captured
strict flag generalized: loose mode appends the binding to the global
object's own properties, strict mode raises the ReferenceError and leaves
every scope unchanged. -/
theorem setValueToScopeWalk_unbound (ctx : InterpCtx) (strict : Bool) (sc : ScopeChain)
    (name : String) (value : JSValue)
    (hub : scopeUnbound ctx sc name = true)
    (harr : (sc.globalObject.cls == some "Array") = false)
    (hext : sc.globalObject.preventExtensions = false)
    (hset : alookup sc.globalObject.setter name = none)
    (hget : alookup sc.globalObject.getter name = none) :
    (strict = false →
      ∃ sc', setValueToScopeWalk ctx strict sc name value = .ok sc' ∧
        alookup sc'.globalObject.properties name = some (PropAttr.plain value)) ∧
    (strict = true →
      setValueToScopeWalk ctx strict sc name value =
        .thrown (.interp .referenceError (name ++ " is not defined")) sc) := by
  induction sc with
  | global g gobj =>
    rw [scopeUnbound, Bool.not_eq_true'] at hub
    obtain ⟨hp1, hp2, hp3⟩ := hasProperty_false_parts ctx gobj name hub
    have hguard : (isa ctx (.iobj gobj) ctx.STRING_PROTO &&
        (name == "length" ||
         (match legalArrayIndex name with
          | some n => decide (n < (jsDisplayFull (.iobj gobj)).length)
          | none => false))) = false := by
      cases hIsa : isa ctx (.iobj gobj) ctx.STRING_PROTO
      · simp
      · rw [hIsa] at hp1 hp2
        simp only [Bool.and_true, Bool.true_and] at hp1 hp2
        simp [hp1, hp2]
    have hdef : findDefObj gobj name (some gobj) = gobj := findDefObjFrom_absent gobj name gobj hp3
    have hown : alookup gobj.properties name = none := hasOwnChainObj_false_own name gobj hp3
    have hsp := setProperty_assign_fresh ctx strict gobj name value hguard harr hext hown
      (by rw [hdef]; exact hset) (by rw [hdef]; exact hget)
    constructor
    · intro hs
      subst hs
      refine ⟨.global g (gobj.withProperties (gobj.properties ++ [(name, PropAttr.plain value)])),
        ?_, ?_⟩
      · simp [setValueToScopeWalk, hsp]
      · simp only [ScopeChain.globalObject, InterpreterObject.properties_withProperties]
        rw [alookup_append_right _ _ _ hown, alookup_singleton_self]
    · intro hs
      subst hs
      simp [setValueToScopeWalk, hub]
  | frame fs obj parent ih =>
    rw [scopeUnbound, Bool.and_eq_true, Bool.not_eq_true'] at hub
    obtain ⟨h1, h2⟩ := hub
    have h1n : alookup obj.properties name = none :=
      Option.not_isSome_iff_eq_none.mp (by simp [h1])
    have IH := ih h2 harr hext hset hget
    have e : setValueToScopeWalk ctx strict (.frame fs obj parent) name value =
        (match alookup obj.properties name with
         | some a =>
           .ok (.frame fs (obj.withProperties (updateAssoc obj.properties name
             (PropAttr.mk value a.writable a.enumerable a.configurable a.isAccessor))) parent)
         | none =>
           match setValueToScopeWalk ctx strict parent name value with
           | .ok p => .ok (.frame fs obj p)
           | .setterCall fn p => .setterCall fn (.frame fs obj p)
           | .thrown er p => .thrown er (.frame fs obj p)) := rfl
    constructor
    · intro hs
      obtain ⟨sc', hsc', hlook⟩ := IH.1 hs
      refine ⟨.frame fs obj sc', ?_, ?_⟩
      · rw [e, h1n, hsc']
      · exact hlook
    · intro hs
      have ht := IH.2 hs
      rw [e, h1n, ht]

/-- C6: assigning to a name that no enclosing scope defines creates the
binding on the global object in non-strict mode, while in strict mode the
implicit creation is rejected with the interpreted ReferenceError
`<name> is not defined` and no scope changes — so strict-mode programs never
create global bindings by implicit assignment. -/
theorem c6_implicit_global (ctx : InterpCtx) (sc : ScopeChain) (name : String) (value : JSValue)
    (hub : scopeUnbound ctx sc name = true)
    (harr : (sc.globalObject.cls == some "Array") = false)
    (hext : sc.globalObject.preventExtensions = false)
    (hset : alookup sc.globalObject.setter name = none)
    (hget : alookup sc.globalObject.getter name = none) :
    (sc.strict = false →
      ∃ sc', setValueToScope ctx sc name value = .ok sc' ∧
        alookup sc'.globalObject.properties name = some (PropAttr.plain value)) ∧
    (sc.strict = true →
      setValueToScope ctx sc name value =
        .thrown (.interp .referenceError (name ++ " is not defined")) sc) :=
  setValueToScopeWalk_unbound ctx sc.strict sc name value hub harr hext hset hget

/-- Witness: assigning an unbound name in a loose global scope creates the
binding on the global object. -/
theorem c6_implicit_global_witness :
    ∃ sc', setValueToScope defaultCtx (.global false (protoStub 0 none)) "x" (.boolean true) =
        .ok sc' ∧
      alookup sc'.globalObject.properties "x" = some (PropAttr.plain (.boolean true)) :=
  (c6_implicit_global defaultCtx (.global false (protoStub 0 none)) "x" (.boolean true)
    rfl rfl rfl rfl rfl).1 rfl

/-! ### Claim C3: the regexp bridge -/

/-- C3: the regexp round trip of the spec never happens.  On every host
regular expression — whatever its source, flags and `lastIndex` —
`nativeToPseudo` throws the host TypeError raised by `populateRegExp`'s
write to the get-only `data` accessor, so `pseudoToNative(nativeToPseudo(r))`
never returns a host regexp at all. -/
theorem c3_regexp_bridge_throws (ctx : InterpCtx) (strict : Bool) (fuel : ℕ)
    (src flags : String) (li : JsNum) :
    nativeToPseudo ctx strict fuel (.hobj (.regexp src flags li)) =
      .error (.host "Cannot set property data of #<InterpreterObject> which has only a getter") := by
  cases fuel <;> rfl


/-! ### Claim C10: non-constructor functions -/

/-- C10: a function created with `isConstructor` false carries the
`illegalConstructor` flag and no `prototype` property, and a NewExpression
whose callee is such a function — or any non-object — raises the interpreted
TypeError `<callee> is not a constructor`. -/
theorem c10_illegal_constructor (ctx : InterpCtx) (strict strict2 : Bool) (id : ℕ)
    (fname : String) (argc : ℕ) (hctx : wfCtx ctx = true) :
    ∃ f : InterpreterObject,
      createNativeFunction ctx strict id fname argc false = .ok f ∧
      f.illegalConstructor = true ∧
      alookup f.properties "prototype" = none ∧
      determineNewThis ctx strict2 (.iobj f) =
        .error (.interp .typeError (jsDisplayFull (.iobj f) ++ " is not a constructor")) ∧
      (∀ b : Bool, determineNewThis ctx strict2 (.boolean b) =
        .error (.interp .typeError (jsDisplayFull (.boolean b) ++ " is not a constructor"))) ∧
      (∀ n : JsNum, determineNewThis ctx strict2 (.number n) =
        .error (.interp .typeError (jsDisplayFull (.number n) ++ " is not a constructor"))) ∧
      (∀ s : String, determineNewThis ctx strict2 (.string s) =
        .error (.interp .typeError (jsDisplayFull (.string s) ++ " is not a constructor"))) ∧
      determineNewThis ctx strict2 .undefined =
        .error (.interp .typeError (jsDisplayFull .undefined ++ " is not a constructor")) ∧
      determineNewThis ctx strict2 .jsNull =
        .error (.interp .typeError (jsDisplayFull .jsNull ++ " is not a constructor")) := by
  obtain ⟨hOP, hFP, hAP, hSP, hNP, hBP, hRP, hDP, hEP, hAF, hgmO, hgmA⟩ := wfCtx_parts ctx hctx
  have hisaStr : ∀ (c : Option String) (p : List (String × PropAttr)) (nf : Option ℕ),
      isa ctx (.iobj (.mk none c p [] [] (some ctx.FUNCTION_PROTO) false true none nf))
        ctx.STRING_PROTO = false := by
    intro c p nf
    rw [isa_fresh_proto ctx (.mk none c p [] [] (some ctx.FUNCTION_PROTO) false true none nf)
      ctx.STRING_PROTO 3 (tag_of_chainTagsObj _ _ _ hSP) rfl]
    simp only [InterpreterObject.proto_mk]
    rw [show chainTags (some ctx.FUNCTION_PROTO) = chainTagsObj ctx.FUNCTION_PROTO from rfl, hFP]
    rfl
  have hisaErr : isa ctx
      (.iobj (.mk none none [] [] [] (some ctx.FUNCTION_PROTO) false false none none))
      ctx.ERROR_PROTO = false := by
    rw [isa_fresh_proto ctx
      (.mk none none [] [] [] (some ctx.FUNCTION_PROTO) false false none none)
      ctx.ERROR_PROTO 8 (tag_of_chainTagsObj _ _ _ hEP) rfl]
    simp only [InterpreterObject.proto_mk]
    rw [show chainTags (some ctx.FUNCTION_PROTO) = chainTagsObj ctx.FUNCTION_PROTO from rfl, hFP]
    rfl
  have hcop : createObjectProto ctx (some ctx.FUNCTION_PROTO) =
      .mk none none [] [] [] (some ctx.FUNCTION_PROTO) false false none none := by
    simp [createObjectProto, hisaErr]
  have s1 := setPropIgnore_define_fresh ctx strict none none []
    (some ctx.FUNCTION_PROTO) true none none
    "length" (.number (.rat argc)) (some true) (some false) (some false)
    (by rw [hisaStr]; rfl) rfl rfl
  simp only [Option.getD_some, List.nil_append] at s1
  have s2 := setPropIgnore_define_fresh ctx strict none (some "Function")
    [("length", PropAttr.mk (.number (.rat argc)) false false true false)]
    (some ctx.FUNCTION_PROTO) true none (some id)
    "name" (.string fname) (some true) (some false) (some false)
    (by rw [hisaStr]; rfl) rfl rfl
  simp only [Option.getD_some, List.cons_append, List.nil_append] at s2
  have eb : createFunctionBase_ ctx strict (.rat argc) false =
      .ok (.mk none (some "Function")
        [("length", PropAttr.mk (.number (.rat argc)) false false true false)]
        [] [] (some ctx.FUNCTION_PROTO) false true none none) := by
    rw [createFunctionBase_]
    simp only [hcop, Bool.false_eq_true, if_false, InterpreterObject.withIllegalConstructor,
      READONLY_NONENUMERABLE_DESCRIPTOR, s1, except_bind_ok, InterpreterObject.withCls]
    rfl
  have efin : createNativeFunction ctx strict id fname argc false =
      .ok (.mk none (some "Function")
        [("length", PropAttr.mk (.number (.rat argc)) false false true false),
         ("name", PropAttr.mk (.string fname) false false true false)]
        [] [] (some ctx.FUNCTION_PROTO) false true none (some id)) := by
    rw [createNativeFunction]
    simp only [eb, except_bind_ok, InterpreterObject.withNativeFuncId,
      READONLY_NONENUMERABLE_DESCRIPTOR, s2]
    rfl
  refine ⟨_, efin, rfl, rfl, rfl, fun b => rfl, fun n => rfl, fun s => rfl, rfl, rfl⟩

/-- Witness: the non-constructor path at concrete arguments. -/
theorem c10_illegal_constructor_witness :
    ∃ f : InterpreterObject,
      createNativeFunction defaultCtx false 0 "f" 0 false = .ok f ∧
      f.illegalConstructor = true ∧
      alookup f.properties "prototype" = none ∧
      determineNewThis defaultCtx false (.iobj f) =
        .error (.interp .typeError (jsDisplayFull (.iobj f) ++ " is not a constructor")) :=
  let h := c10_illegal_constructor defaultCtx false false 0 "f" 0 rfl
  ⟨h.choose, h.choose_spec.1, h.choose_spec.2.1, h.choose_spec.2.2.1, h.choose_spec.2.2.2.1⟩

/-! ### Claim C4: the Array length invariant -/

theorem setPropertyArray_index (ctx : InterpCtx) (strict : Bool) (o : InterpreterObject)
    (name : String) (vv : JSValue) (i : ℕ) (la : PropAttr)
    (hbq : (o.cls == some "Array") = true)
    (hne : (name == "length") = false)
    (hidx : legalArrayIndex name = some i)
    (hlen : alookup o.properties "length" = some la)
    (hlacc : la.isAccessor = false)
    (hlwr : la.writable = true) :
    setPropertyArray ctx strict o name (some vv) none =
      setPropertyTail ctx strict
        (o.withProperties (updateAssoc o.properties "length"
          (PropAttr.mk (.number (jsMax (jsToNumber (arrayLenVal o)) (.rat (i + 1))))
            true la.enumerable la.configurable false)))
        name (some vv) none := by
  have hnacc : (match alookup o.properties "length" with
      | some la2 => la2.isAccessor
      | none => false) = false := by
    rw [hlen]; exact hlacc
  have e1 : setPropertyArray ctx strict o name (some vv) none =
      (if o.cls == some "Array" then
        (if (match alookup o.properties "length" with
             | some la2 => la2.isAccessor
             | none => false) then
          .thrown (.host "Placeholder getter") (.iobj o)
        else
          (if name == "length" then
            (match legalArrayLengthNum (jsToNumber vv) with
             | none => .thrown (.interp .rangeError "Invalid array length") (.iobj o)
             | some m =>
               if jsLtNum (.rat m) (jsToNumber (arrayLenVal o)) then
                 match shrinkBadIdx m o.properties with
                 | none =>
                   setPropertyTail ctx strict (o.withProperties (shrinkAll m o.properties))
                     name (some (.number (.rat m))) none
                 | some jb =>
                   .thrown (.host ("Cannot delete property '" ++ natToStr jb ++ "' of #<Object>"))
                     (.iobj (o.withProperties (shrinkUpTo m jb o.properties)))
               else
                 setPropertyTail ctx strict o name (some (.number (.rat m))) none)
          else
            match legalArrayIndex name with
            | some i2 =>
              (match alookup o.properties "length" with
               | some la2 =>
                 if la2.writable then
                   setPropertyTail ctx strict
                     (o.withProperties (updateAssoc o.properties "length"
                       (PropAttr.mk
                         (.number (jsMax (jsToNumber (arrayLenVal o)) (.rat (i2 + 1))))
                         la2.writable la2.enumerable la2.configurable false)))
                     name (some vv) none
                 else
                   .thrown (.host ("Cannot assign to read only property 'length' of object '" ++
                     jsDisplayFull (.iobj o) ++ "'")) (.iobj o)
               | none =>
                 setPropertyTail ctx strict
                   (o.withProperties (updateAssoc o.properties "length"
                     (PropAttr.plain
                       (.number (jsMax (jsToNumber (arrayLenVal o)) (.rat (i2 + 1)))))))
                   name (some vv) none)
            | none => setPropertyTail ctx strict o name (some vv) none))
      else setPropertyTail ctx strict o name (some vv) none) := rfl
  rw [e1, if_pos hbq, if_neg (by rw [hnacc]; exact Bool.false_ne_true),
    if_neg (by simp [hne]), hidx]
  simp only [hlen, hlwr, reduceIte]

@[simp]
theorem PropAttr.value_plain (v : JSValue) : (PropAttr.plain v).value = v := rfl

theorem any_objSame_none (o : InterpreterObject) (h : o.tag = none)
    (cycles : List InterpreterObject) : cycles.any (objSame o) = false := by
  induction cycles with
  | nil => rfl
  | cons c t ih => rw [List.any_cons, objSame_none_left o c h, ih]; rfl

theorem alookup_of_isEmpty {α : Type} (l : List (String × α)) (k : String)
    (h : l.isEmpty = true) : alookup l k = none := by
  cases l with
  | nil => rfl
  | cons a t => simp [List.isEmpty] at h

theorem hasOwnChainObj_of_own (name : String) (o : InterpreterObject)
    (h : (alookup o.properties name).isSome = true) : hasOwnChainObj name o = true := by
  cases o with
  | mk t c p g s pr pe ic d nf =>
    simp only [InterpreterObject.properties_mk] at h
    cases pr <;> (rw [hasOwnChainObj]; simp [h])

theorem hasProperty_of_own (ctx : InterpCtx) (o : InterpreterObject) (name : String)
    (h : (alookup o.properties name).isSome = true) : hasProperty ctx o name = true := by
  rw [hasProperty]
  by_cases g1 : (name == "length" && isa ctx (.iobj o) ctx.STRING_PROTO) = true
  · rw [if_pos g1]
  · rw [if_neg g1]
    by_cases g2 : (isa ctx (.iobj o) ctx.STRING_PROTO &&
        (match legalArrayIndex name with
         | some n => decide (n < (jsDisplayFull (.iobj o)).length)
         | none => false)) = true
    · rw [if_pos g2]
    · rw [if_neg g2]
      exact hasOwnChainObj_of_own name o h

theorem getPropertyWalkObj_own (name : String) (o : InterpreterObject) (a : PropAttr)
    (hown : alookup o.properties name = some a)
    (hget : alookup o.getter name = none) :
    getPropertyWalkObj name o = .ok a.value := by
  cases o with
  | mk t c p g s pr pe ic d nf =>
    simp only [InterpreterObject.properties_mk, InterpreterObject.getter_mk] at hown hget
    cases pr <;> (rw [getPropertyWalkObj]; simp [hown, hget])

theorem getProperty_own (ctx : InterpCtx) (o : InterpreterObject) (name : String) (a : PropAttr)
    (hstr : isa ctx (.iobj o) ctx.STRING_PROTO = false)
    (hown : alookup o.properties name = some a)
    (hget : alookup o.getter name = none) :
    getProperty ctx (.iobj o) name = .ok a.value := by
  have e : getProperty ctx (.iobj o) name =
      (if name == "length" && isa ctx (.iobj o) ctx.STRING_PROTO then
        .ok (.number (.rat ((jsDisplayFull (.iobj o)).length)))
      else if firstCharBelow64 name && isa ctx (.iobj o) ctx.STRING_PROTO &&
          (match legalArrayIndex name with
           | some n => decide (n < (jsDisplayFull (.iobj o)).length)
           | none => false) then
        .ok (.string (charAtStr (jsDisplayFull (.iobj o)) ((legalArrayIndex name).getD 0)))
      else getPropertyWalk name (some o)) := rfl
  rw [e]
  simp only [hstr, Bool.and_false, Bool.false_and, if_false]
  exact getPropertyWalkObj_own name o a hown hget

theorem trimTrailingHoles_all_some (xs : List JSValue) :
    trimTrailingHoles (xs.map some) = xs.map some := by
  rw [trimTrailingHoles, ← List.map_reverse]
  have h : ∀ (l : List JSValue), (l.map some).dropWhile (fun e => e.isNone) = l.map some := by
    intro l
    cases l with
    | nil => rfl
    | cons a t => rw [List.map_cons, List.dropWhile_cons]; simp
  rw [h, List.map_reverse, List.reverse_reverse]

theorem idxProps_append (k : ℕ) (ws : List JSValue) (w : JSValue) :
    idxProps k (ws ++ [w]) = idxProps k ws ++ [(natToStr (k + ws.length), PropAttr.plain w)] := by
  induction ws generalizing k with
  | nil => simp [idxProps]
  | cons a rest ih =>
    rw [List.cons_append, idxProps, idxProps, ih]
    simp only [List.length_cons, List.cons_append]
    have harith : k + 1 + rest.length = k + (rest.length + 1) := by omega
    rw [harith]

theorem alookup_idxProps_big (k : ℕ) (ws : List JSValue) (i : ℕ) (h : k + ws.length ≤ i) :
    alookup (idxProps k ws) (natToStr i) = none := by
  induction ws generalizing k with
  | nil => rfl
  | cons w rest ih =>
    rw [idxProps, alookup_cons, if_neg, ih (k + 1) (by simp at h; omega)]
    intro hEq
    have := natToStr_injective i k hEq
    simp at h
    omega

theorem alookup_idxProps_get (k : ℕ) (ws : List JSValue) (j : ℕ) (hj : j < ws.length) :
    alookup (idxProps k ws) (natToStr (k + j)) = some (PropAttr.plain (ws.get ⟨j, hj⟩)) := by
  induction ws generalizing k j with
  | nil => simp at hj
  | cons w rest ih =>
    cases j with
    | zero =>
      rw [idxProps, alookup_cons, if_pos (show natToStr (k + 0) = natToStr k by rfl)]
      rfl
    | succ j2 =>
      rw [idxProps, alookup_cons, if_neg]
      · have := ih (k + 1) j2 (by simp at hj; omega)
        rwa [show k + 1 + j2 = k + (j2 + 1) from by omega] at this
      · intro hEq
        have := natToStr_injective (k + (j2 + 1)) k hEq
        omega

theorem idxProps_map_keep (i : ℕ) (ws : List JSValue) (v : PropAttr) :
    (idxProps i ws).map (fun p => if p.1 == "length" then ("length", v) else p) =
      idxProps i ws := by
  induction ws generalizing i with
  | nil => rfl
  | cons w rest ih =>
    rw [idxProps, List.map_cons, ih]
    simp [beq_eq_false_iff_ne.mpr (natToStr_ne_length i)]

theorem fldProps_append (l1 l2 : List (String × JSValue)) :
    fldProps (l1 ++ l2) = fldProps l1 ++ fldProps l2 := by
  induction l1 with
  | nil => rfl
  | cons a t ih =>
    obtain ⟨k, w⟩ := a
    rw [List.cons_append, fldProps, fldProps, ih, List.cons_append]

theorem alookup_fldProps_none (l : List (String × JSValue)) (k : String)
    (h : k ∉ l.map Prod.fst) : alookup (fldProps l) k = none := by
  induction l with
  | nil => rfl
  | cons a t ih =>
    obtain ⟨k2, w⟩ := a
    simp only [List.map_cons, List.mem_cons] at h
    push_neg at h
    rw [fldProps, alookup_cons, if_neg h.1, ih h.2]

theorem findDefObjFrom_accessors_none (r : InterpreterObject) (name : String)
    (hrs : alookup r.setter name = none) (hrg : alookup r.getter name = none)
    (o : InterpreterObject) (hc : chainGoodMaps o = true) :
    alookup (findDefObjFrom r name o).setter name = none ∧
    alookup (findDefObjFrom r name o).getter name = none := by
  induction o using chainTagsObj.induct with
  | case1 t c p g s pe ic d nf =>
    rw [chainGoodMaps, goodMaps, Bool.and_eq_true] at hc
    rw [noAccessorMaps, Bool.and_eq_true] at hc
    rw [findDefObjFrom]
    by_cases hp : (alookup p name).isSome = true
    · rw [if_pos hp]
      refine ⟨alookup_of_isEmpty _ _ ?_, alookup_of_isEmpty _ _ ?_⟩
      · exact hc.1.2
      · exact hc.1.1
    · rw [if_neg hp]
      exact ⟨hrs, hrg⟩
  | case2 t c p g s pr pe ic d nf ih =>
    rw [chainGoodMaps, Bool.and_eq_true] at hc
    obtain ⟨hgm, htail⟩ := hc
    rw [goodMaps, Bool.and_eq_true] at hgm
    rw [noAccessorMaps, Bool.and_eq_true] at hgm
    rw [findDefObjFrom]
    by_cases hp : (alookup p name).isSome = true
    · rw [if_pos hp]
      refine ⟨alookup_of_isEmpty _ _ ?_, alookup_of_isEmpty _ _ ?_⟩
      · exact hgm.1.2
      · exact hgm.1.1
    · rw [if_neg hp]
      exact ih htail

theorem forall_mem_exists_forall2 {α β : Type} {P : α → β → Prop} :
    ∀ (l : List α), (∀ x ∈ l, ∃ y, P x y) → ∃ l2, List.Forall₂ P l l2 := by
  intro l h
  induction l with
  | nil => exact ⟨[], List.Forall₂.nil⟩
  | cons a t ih =>
    obtain ⟨y, hy⟩ := h a (by simp)
    obtain ⟨l2, hl2⟩ := ih (fun x hx => h x (by simp [hx]))
    exact ⟨y :: l2, List.Forall₂.cons hy hl2⟩

theorem loopCount_natCast (n : ℕ) : loopCount (.rat n) = n := by
  rw [loopCount]
  rw [show ((n : ℚ) : ℚ) = ((n : ℕ) : ℚ) from rfl]
  rw [Int.ceil_natCast]
  exact Int.toNat_natCast n

theorem setProperty_iobj_plain (ctx : InterpCtx) (strict : Bool) (o : InterpreterObject)
    (nm : String) (vv : JSValue)
    (hstr : isa ctx (.iobj o) ctx.STRING_PROTO = false) :
    setProperty ctx strict (.iobj o) nm (some vv) none =
      setPropertyArray ctx strict o nm (some vv) none := by
  have e0 : setProperty ctx strict (.iobj o) nm (some vv) none =
      (if isa ctx (.iobj o) ctx.STRING_PROTO &&
          (nm == "length" ||
           (match legalArrayIndex nm with
            | some n => decide (n < (jsDisplayFull (.iobj o)).length)
            | none => false)) then
        (if strict then
          .thrown (.interp .typeError ("Cannot assign to read only property '" ++ nm ++
            "' of String '" ++ (match o.data with
              | some (.boxedString s2) => s2
              | _ => jsDisplayFull (.iobj o)) ++ "'")) (.iobj o)
        else .ok (.iobj o))
      else setPropertyArray ctx strict o nm (some vv) none) := rfl
  rw [e0, if_neg (by simp [hstr])]

theorem setPropertyTail_assign_ok (ctx : InterpCtx) (strict : Bool) (o : InterpreterObject)
    (name : String) (v : JSValue)
    (hext : o.preventExtensions = false)
    (hset : alookup (findDefObj o name (some o)).setter name = none)
    (hget : alookup (findDefObj o name (some o)).getter name = none)
    (hown : alookup o.properties name = none) :
    setPropertyTail ctx strict o name (some v) none =
      .ok (.iobj (o.withProperties (o.properties ++ [(name, PropAttr.plain v)]))) := by
  have etail : setPropertyTail ctx strict o name (some v) none =
      (if o.preventExtensions && !(alookup o.properties name).isSome then
        (if strict then
          .thrown (.interp .typeError ("Can't add property '" ++ name ++
            "', object is not extensible")) (.iobj o)
        else .ok (.iobj o))
      else
        match alookup (findDefObj o name (some o)).setter name with
        | some f => .setterCall f (.iobj o)
        | none =>
          match alookup (findDefObj o name (some o)).getter name with
          | some _ =>
            (if strict then
              .thrown (.interp .typeError ("Cannot set property '" ++ name ++ "' of object '" ++
                jsDisplayFull (.iobj o) ++ "' which only has a getter")) (.iobj o)
            else .ok (.iobj o))
          | none =>
            match hostAssign o.properties name v with
            | some props => .ok (.iobj (o.withProperties props))
            | none =>
              (if strict then
                .thrown (.interp .typeError ("Cannot assign to read only property '" ++ name ++
                  "' of object '" ++ jsDisplayFull (.iobj o) ++ "'")) (.iobj o)
              else .ok (.iobj o))) := rfl
  have hha : hostAssign o.properties name v =
      some (o.properties ++ [(name, PropAttr.plain v)]) := by
    rw [hostAssign, hown]
  rw [etail, if_neg (by simp [hext]), hset, hget, hha]

theorem findDefObj_step_proto (r : InterpreterObject) (name : String)
    (t : Option ℕ) (c : Option String) (p : List (String × PropAttr))
    (g s : List (String × JSValue)) (pr : InterpreterObject) (pe ic : Bool)
    (d : Option ObjData) (nf : Option ℕ)
    (hown : alookup p name = none) :
    findDefObjFrom r name (.mk t c p g s (some pr) pe ic d nf) =
      findDefObjFrom r name pr := by
  rw [findDefObjFrom, if_neg (by simp [hown])]

theorem createArray_eq (ctx : InterpCtx) (strict : Bool)
    (hAP : chainTagsObj ctx.ARRAY_PROTO = [some 2, some 0])
    (hSP : chainTagsObj ctx.STRING_PROTO = [some 3, some 0])
    (hEP : chainTagsObj ctx.ERROR_PROTO = [some 8, some 0]) :
    createArray ctx strict = .ok (arrState ctx 0 []) := by
  have hisaErr : isa ctx
      (.iobj (.mk none none [] [] [] (some ctx.ARRAY_PROTO) false false none none))
      ctx.ERROR_PROTO = false := by
    rw [isa_fresh_proto ctx
      (.mk none none [] [] [] (some ctx.ARRAY_PROTO) false false none none)
      ctx.ERROR_PROTO 8 (tag_of_chainTagsObj _ _ _ hEP) rfl]
    simp only [InterpreterObject.proto_mk]
    rw [show chainTags (some ctx.ARRAY_PROTO) = chainTagsObj ctx.ARRAY_PROTO from rfl, hAP]
    rfl
  have hisaStr : isa ctx
      (.iobj (.mk none none [] [] [] (some ctx.ARRAY_PROTO) false false none none))
      ctx.STRING_PROTO = false := by
    rw [isa_fresh_proto ctx
      (.mk none none [] [] [] (some ctx.ARRAY_PROTO) false false none none)
      ctx.STRING_PROTO 3 (tag_of_chainTagsObj _ _ _ hSP) rfl]
    simp only [InterpreterObject.proto_mk]
    rw [show chainTags (some ctx.ARRAY_PROTO) = chainTagsObj ctx.ARRAY_PROTO from rfl, hAP]
    rfl
  have hcop : createObjectProto ctx (some ctx.ARRAY_PROTO) =
      .mk none none [] [] [] (some ctx.ARRAY_PROTO) false false none none := by
    simp [createObjectProto, hisaErr]
  have s1 := setPropIgnore_define_fresh ctx strict none none []
    (some ctx.ARRAY_PROTO) false none none
    "length" (.number (.rat 0)) (some false) (some false) (some true)
    (by rw [hisaStr]; rfl) rfl rfl
  simp only [Option.getD_some, List.nil_append] at s1
  have e : createArray ctx strict =
      (setPropIgnore ctx strict (createObjectProto ctx (some ctx.ARRAY_PROTO)) "length"
        (some (.number (.rat 0))) (some ⟨none, none, some false, some false, some true, none⟩))
        >>= (fun array => pure (array.withCls (some "Array"))) := rfl
  rw [e, hcop, s1, except_bind_ok]
  rfl

theorem arr_step (ctx : InterpCtx) (strict : Bool)
    (hgmA : chainGoodMaps ctx.ARRAY_PROTO = true)
    (hAP : chainTagsObj ctx.ARRAY_PROTO = [some 2, some 0])
    (hSP : chainTagsObj ctx.STRING_PROTO = [some 3, some 0])
    (i : ℕ) (hi : i < 4294967295) (ws : List JSValue) (hws : ws.length = i) (wx : JSValue) :
    setPropIgnore ctx strict (arrState ctx i ws) (natToStr i) (some wx) none =
      .ok (arrState ctx (i + 1) (ws ++ [wx])) := by
  have hisaStr : isa ctx (.iobj (arrState ctx i ws)) ctx.STRING_PROTO = false := by
    rw [isa_fresh_proto ctx (arrState ctx i ws) ctx.STRING_PROTO 3
      (tag_of_chainTagsObj _ _ _ hSP) rfl]
    rw [show (arrState ctx i ws).proto = some ctx.ARRAY_PROTO from rfl]
    rw [show chainTags (some ctx.ARRAY_PROTO) = chainTagsObj ctx.ARRAY_PROTO from rfl, hAP]
    rfl
  have hown : alookup (arrState ctx i ws).properties (natToStr i) = none := by
    rw [show (arrState ctx i ws).properties =
      ("length", PropAttr.mk (.number (.rat i)) true false false false) ::
        idxProps 0 ws from rfl]
    rw [alookup_cons, if_neg (natToStr_ne_length i), alookup_idxProps_big 0 ws i (by omega)]
  have hbq : ((arrState ctx i ws).cls == some "Array") = true := rfl
  have hne : ((natToStr i) == "length") = false := beq_eq_false_iff_ne.mpr (natToStr_ne_length i)
  have hidx : legalArrayIndex (natToStr i) = some i := legalArrayIndex_natToStr i hi
  have hmax : jsMax (jsToNumber (arrayLenVal (arrState ctx i ws))) (.rat (i + 1)) =
      .rat (i + 1) := by
    rw [show arrayLenVal (arrState ctx i ws) = .number (.rat i) from rfl]
    rw [show jsToNumber (.number (.rat i)) = .rat i from rfl]
    rw [show jsMax (.rat i) (.rat (i + 1)) = .rat (max (i : ℚ) ((i : ℚ) + 1)) from rfl]
    rw [max_eq_right (by linarith : (i : ℚ) ≤ (i : ℚ) + 1)]
  have hlen : alookup (arrState ctx i ws).properties "length" =
      some (PropAttr.mk (.number (.rat i)) true false false false) := by
    rw [show (arrState ctx i ws).properties =
      ("length", PropAttr.mk (.number (.rat i)) true false false false) ::
        idxProps 0 ws from rfl]
    rw [alookup_cons, if_pos rfl]
  have hupd : (arrState ctx i ws).withProperties (updateAssoc (arrState ctx i ws).properties
      "length"
      (PropAttr.mk
        (.number (jsMax (jsToNumber (arrayLenVal (arrState ctx i ws))) (.rat (i + 1))))
        true false false false)) =
      .mk none (some "Array")
        (("length", PropAttr.mk (.number (.rat (i + 1))) true false false false) ::
          idxProps 0 ws)
        [] [] (some ctx.ARRAY_PROTO) false false none none := by
    rw [hmax]
    rw [show (arrState ctx i ws).properties =
      ("length", PropAttr.mk (.number (.rat i)) true false false false) ::
        idxProps 0 ws from rfl]
    rw [updateAssoc]
    rw [show alookup (("length", PropAttr.mk (.number (.rat i)) true false false false) ::
        idxProps 0 ws) "length" =
      some (PropAttr.mk (.number (.rat i)) true false false false) from by
        rw [alookup_cons, if_pos rfl]]
    simp only [Option.isSome_some, if_true, List.map_cons]
    rw [idxProps_map_keep]
    rfl
  have hown2 : alookup (("length", PropAttr.mk (.number (.rat (i + 1))) true false false false) ::
      idxProps 0 ws) (natToStr i) = none := by
    rw [alookup_cons, if_neg (natToStr_ne_length i), alookup_idxProps_big 0 ws i (by omega)]
  have hfd : findDefObj
      (.mk none (some "Array")
        (("length", PropAttr.mk (.number (.rat (i + 1))) true false false false) ::
          idxProps 0 ws)
        [] [] (some ctx.ARRAY_PROTO) false false none none)
      (natToStr i)
      (some (.mk none (some "Array")
        (("length", PropAttr.mk (.number (.rat (i + 1))) true false false false) ::
          idxProps 0 ws)
        [] [] (some ctx.ARRAY_PROTO) false false none none)) =
      findDefObjFrom
        (.mk none (some "Array")
          (("length", PropAttr.mk (.number (.rat (i + 1))) true false false false) ::
            idxProps 0 ws)
          [] [] (some ctx.ARRAY_PROTO) false false none none)
        (natToStr i) ctx.ARRAY_PROTO :=
    findDefObj_step_proto _ (natToStr i) none (some "Array")
      (("length", PropAttr.mk (.number (.rat (i + 1))) true false false false) ::
        idxProps 0 ws)
      [] [] ctx.ARRAY_PROTO false false none none hown2
  have hacc := findDefObjFrom_accessors_none
    (.mk none (some "Array")
      (("length", PropAttr.mk (.number (.rat (i + 1))) true false false false) ::
        idxProps 0 ws)
      [] [] (some ctx.ARRAY_PROTO) false false none none)
    (natToStr i) rfl rfl ctx.ARRAY_PROTO hgmA
  have htail := setPropertyTail_assign_ok ctx strict
    (.mk none (some "Array")
      (("length", PropAttr.mk (.number (.rat (i + 1))) true false false false) ::
        idxProps 0 ws)
      [] [] (some ctx.ARRAY_PROTO) false false none none)
    (natToStr i) wx rfl (by rw [hfd]; exact hacc.1) (by rw [hfd]; exact hacc.2) hown2
  have hprops : (("length", PropAttr.mk (.number (.rat (i + 1))) true false false false) ::
      idxProps 0 ws) ++ [(natToStr i, PropAttr.plain wx)] =
      ("length", PropAttr.mk (.number (.rat (i + 1))) true false false false) ::
        idxProps 0 (ws ++ [wx]) := by
    rw [idxProps_append, show 0 + ws.length = i from by omega, List.cons_append]
  have e : setPropIgnore ctx strict (arrState ctx i ws) (natToStr i) (some wx) none =
      (match setProperty ctx strict (.iobj (arrState ctx i ws)) (natToStr i) (some wx) none with
       | .ok (.iobj a) => .ok a
       | .setterCall _ (.iobj a) => .ok a
       | .thrown er _ => .error er
       | .ok _ => .ok (arrState ctx i ws)
       | .setterCall _ _ => .ok (arrState ctx i ws)) := rfl
  rw [e, setProperty_iobj_plain ctx strict (arrState ctx i ws) (natToStr i) wx hisaStr,
    setPropertyArray_index ctx strict (arrState ctx i ws) (natToStr i) wx i
      (PropAttr.mk (.number (.rat i)) true false false false) hbq hne hidx hlen rfl rfl]
  simp only [PropAttr.enumerable_mk, PropAttr.configurable_mk]
  rw [hupd, htail]
  rw [show ((.mk none (some "Array")
      (("length", PropAttr.mk (.number (.rat (i + 1))) true false false false) ::
        idxProps 0 ws)
      [] [] (some ctx.ARRAY_PROTO) false false none none : InterpreterObject)).properties =
    ("length", PropAttr.mk (.number (.rat (i + 1))) true false false false) ::
      idxProps 0 ws from rfl]
  rw [hprops]
  rw [show ((i : ℚ) + 1) = (((i + 1 : ℕ) : ℚ)) from by push_cast; ring]
  rfl

theorem obj_step (ctx : InterpCtx) (strict : Bool)
    (hgmO : chainGoodMaps ctx.OBJECT_PROTO = true)
    (hOP : chainTagsObj ctx.OBJECT_PROTO = [some 0])
    (hSP : chainTagsObj ctx.STRING_PROTO = [some 3, some 0])
    (ps : List (String × PropAttr)) (k : String) (w : JSValue)
    (hfresh : alookup ps k = none) :
    setPropIgnore ctx strict (objState ctx ps) k (some w) none =
      .ok (objState ctx (ps ++ [(k, PropAttr.plain w)])) := by
  have hisaStr : isa ctx (.iobj (objState ctx ps)) ctx.STRING_PROTO = false := by
    rw [isa_fresh_proto ctx (objState ctx ps) ctx.STRING_PROTO 3
      (tag_of_chainTagsObj _ _ _ hSP) rfl]
    rw [show (objState ctx ps).proto = some ctx.OBJECT_PROTO from rfl]
    rw [show chainTags (some ctx.OBJECT_PROTO) = chainTagsObj ctx.OBJECT_PROTO from rfl, hOP]
    rfl
  have hfd : findDefObj (objState ctx ps) k (some (objState ctx ps)) =
      findDefObjFrom (objState ctx ps) k ctx.OBJECT_PROTO :=
    findDefObj_step_proto _ k none none ps [] [] ctx.OBJECT_PROTO false false none none hfresh
  have hacc := findDefObjFrom_accessors_none (objState ctx ps) k rfl rfl ctx.OBJECT_PROTO hgmO
  have hsp := setProperty_assign_fresh ctx strict (objState ctx ps) k w
    (by rw [hisaStr]; rfl) rfl rfl hfresh
    (by rw [hfd]; exact hacc.1) (by rw [hfd]; exact hacc.2)
  have e : setPropIgnore ctx strict (objState ctx ps) k (some w) none =
      (match setProperty ctx strict (.iobj (objState ctx ps)) k (some w) none with
       | .ok (.iobj a) => .ok a
       | .setterCall _ (.iobj a) => .ok a
       | .thrown er _ => .error er
       | .ok _ => .ok (objState ctx ps)
       | .setterCall _ _ => .ok (objState ctx ps)) := rfl
  rw [e, hsp]
  rfl

theorem n2pArrayLoop_build (ctx : InterpCtx) (strict : Bool)
    (hgmA : chainGoodMaps ctx.ARRAY_PROTO = true)
    (hAP : chainTagsObj ctx.ARRAY_PROTO = [some 2, some 0])
    (hSP : chainTagsObj ctx.STRING_PROTO = [some 3, some 0]) :
    ∀ (xs ws2 ws : List JSValue) (fuel : ℕ),
      List.Forall₂ (N2P ctx strict) xs ws2 →
      optListSize (xs.map some) ≤ fuel →
      ws.length + xs.length ≤ 4294967295 →
      n2pArrayLoop ctx strict fuel (xs.map some) ws.length (arrState ctx ws.length ws) =
        .ok (arrState ctx (ws.length + xs.length) (ws ++ ws2)) := by
  intro xs
  induction xs with
  | nil =>
    intro ws2 ws fuel hf2 _ _
    cases hf2
    have e : n2pArrayLoop ctx strict fuel ([] : List (Option JSValue)) ws.length
        (arrState ctx ws.length ws) = .ok (arrState ctx ws.length ws) := by
      cases fuel <;> rfl
    rw [show (([] : List JSValue).map some) = ([] : List (Option JSValue)) from rfl, e,
      List.append_nil]
    rfl
  | cons x xr ih =>
    intro ws2 ws fuel hf2 hfuel hbound
    cases ws2 with
    | nil => cases hf2
    | cons w1 wr =>
      have hxw : N2P ctx strict x w1 := (List.forall₂_cons.mp hf2).1
      have htail : List.Forall₂ (N2P ctx strict) xr wr := (List.forall₂_cons.mp hf2).2
      cases fuel with
      | zero =>
        exfalso
        have h1 : jsSize x + optListSize (xr.map some) + 1 ≤ 0 := hfuel
        omega
      | succ f =>
        have h1 : jsSize x + optListSize (xr.map some) + 1 ≤ f + 1 := hfuel
        have hx : jsSize x ≤ f := by omega
        have hr : optListSize (xr.map some) ≤ f := by omega
        have e : n2pArrayLoop ctx strict (f + 1) ((x :: xr).map some) ws.length
            (arrState ctx ws.length ws) =
            (nativeToPseudo ctx strict f x) >>= (fun px =>
              (setPropIgnore ctx strict (arrState ctx ws.length ws) (natToStr ws.length)
                (some px) none) >>= (fun acc =>
                n2pArrayLoop ctx strict f (xr.map some) (ws.length + 1) acc)) := rfl
        rw [e, hxw f hx, except_bind_ok,
          arr_step ctx strict hgmA hAP hSP ws.length
            (by simp only [List.length_cons] at hbound; omega) ws rfl w1,
          except_bind_ok]
        have hIH := ih wr (ws ++ [w1]) f htail hr
          (by simp only [List.length_append, List.length_cons, List.length_nil,
            List.length_cons] at hbound ⊢; omega)
        rw [show (ws ++ [w1]).length = ws.length + 1 from by simp] at hIH
        rw [hIH, List.append_assoc,
          show ws.length + 1 + xr.length = ws.length + (x :: xr).length from by
            simp only [List.length_cons]; omega]
        rfl

theorem p2nArrayLoop_read (ctx : InterpCtx) (o : InterpreterObject)
    (hstr : isa ctx (.iobj o) ctx.STRING_PROTO = false)
    (hget : o.getter = []) :
    ∀ (xs ws2 : List JSValue) (i fuel2 : ℕ) (cycles : List InterpreterObject),
      List.Forall₂ (P2N ctx) xs ws2 →
      optListSize (xs.map some) ≤ fuel2 →
      (∀ t (ht : t < ws2.length), alookup o.properties (natToStr (i + t)) =
        some (PropAttr.plain (ws2.get ⟨t, ht⟩))) →
      p2nArrayLoop ctx cycles o fuel2 xs.length i = .ok (xs.map some) := by
  intro xs
  induction xs with
  | nil =>
    intro ws2 i fuel2 cycles _ _ _
    have e : p2nArrayLoop ctx cycles o fuel2 ([] : List JSValue).length i =
        .ok ([] : List (Option JSValue)) := by
      cases fuel2 <;> rfl
    rw [e]
    rfl
  | cons x xr ih =>
    intro ws2 i fuel2 cycles hf2 hfuel hlk
    cases ws2 with
    | nil => cases hf2
    | cons w1 wr =>
      have hxw : P2N ctx x w1 := (List.forall₂_cons.mp hf2).1
      have htail : List.Forall₂ (P2N ctx) xr wr := (List.forall₂_cons.mp hf2).2
      cases fuel2 with
      | zero =>
        exfalso
        have h1 : jsSize x + optListSize (xr.map some) + 1 ≤ 0 := hfuel
        omega
      | succ f =>
        have h1 : jsSize x + optListSize (xr.map some) + 1 ≤ f + 1 := hfuel
        have hx : jsSize x ≤ f := by omega
        have hr : optListSize (xr.map some) ≤ f := by omega
        have hlk0 : alookup o.properties (natToStr i) = some (PropAttr.plain w1) :=
          hlk 0 (by simp)
        have hhp : hasProperty ctx o (natToStr i) = true :=
          hasProperty_of_own ctx o (natToStr i) (by rw [hlk0]; rfl)
        have hgp : getProperty ctx (.iobj o) (natToStr i) = .ok (PropAttr.plain w1).value :=
          getProperty_own ctx o (natToStr i) (PropAttr.plain w1) hstr hlk0
            (by rw [hget]; rfl)
        have e : p2nArrayLoop ctx cycles o (f + 1) (x :: xr).length i =
            (if hasProperty ctx o (natToStr i) then
              match getProperty ctx (.iobj o) (natToStr i) with
              | .thrown er => .error er
              | .getterCall _ => .error (.host "Getter not supported in that context")
              | .ok vv =>
                (pseudoToNative ctx f cycles vv) >>= (fun nv =>
                  (p2nArrayLoop ctx cycles o f xr.length (i + 1)) >>= (fun rest =>
                    pure (some nv :: rest)))
            else
              (p2nArrayLoop ctx cycles o f xr.length (i + 1)) >>= (fun rest =>
                pure (none :: rest))) := rfl
        rw [e, if_pos hhp, hgp]
        simp only [PropAttr.value_plain]
        rw [hxw f cycles hx, except_bind_ok]
        have hIH := ih wr (i + 1) f cycles htail hr (fun t ht => by
          have h2 := hlk (t + 1) (by simp only [List.length_cons]; omega)
          rwa [show i + (t + 1) = i + 1 + t from by omega] at h2)
        rw [hIH, except_bind_ok]
        rfl

theorem n2pObjLoop_build (ctx : InterpCtx) (strict : Bool)
    (hgmO : chainGoodMaps ctx.OBJECT_PROTO = true)
    (hOP : chainTagsObj ctx.OBJECT_PROTO = [some 0])
    (hSP : chainTagsObj ctx.STRING_PROTO = [some 3, some 0]) :
    ∀ (flds cfs done : List (String × JSValue)) (fuel : ℕ),
      List.Forall₂ (fun p q => p.1 = q.1 ∧ N2P ctx strict p.2 q.2) flds cfs →
      valListSize flds ≤ fuel →
      (done.map Prod.fst ++ flds.map Prod.fst).Nodup →
      n2pObjLoop ctx strict fuel flds (objState ctx (fldProps done)) =
        .ok (objState ctx (fldProps (done ++ cfs))) := by
  intro flds
  induction flds with
  | nil =>
    intro cfs done fuel hf2 _ _
    cases hf2
    have e : n2pObjLoop ctx strict fuel ([] : List (String × JSValue))
        (objState ctx (fldProps done)) = .ok (objState ctx (fldProps done)) := by
      cases fuel <;> rfl
    rw [e, List.append_nil]
  | cons p fr ih =>
    intro cfs done fuel hf2 hfuel hnd
    obtain ⟨k, x⟩ := p
    cases cfs with
    | nil => cases hf2
    | cons q qr =>
      obtain ⟨k2, w1⟩ := q
      have hpair := (List.forall₂_cons.mp hf2).1
      have htail := (List.forall₂_cons.mp hf2).2
      have hk2 : k = k2 := hpair.1
      subst hk2
      have hn2p : N2P ctx strict x w1 := hpair.2
      cases fuel with
      | zero =>
        exfalso
        have h1 : jsSize x + valListSize fr + 1 ≤ 0 := hfuel
        omega
      | succ f =>
        have h1 : jsSize x + valListSize fr + 1 ≤ f + 1 := hfuel
        have hx : jsSize x ≤ f := by omega
        have hr : valListSize fr ≤ f := by omega
        have hkdone : k ∉ done.map Prod.fst := by
          have hdisj := List.disjoint_of_nodup_append hnd
          intro hmem
          exact hdisj hmem (by simp)
        have hfresh : alookup (fldProps done) k = none := alookup_fldProps_none _ _ hkdone
        have e : n2pObjLoop ctx strict (f + 1) ((k, x) :: fr) (objState ctx (fldProps done)) =
            (nativeToPseudo ctx strict f x) >>= (fun px =>
              (setPropIgnore ctx strict (objState ctx (fldProps done)) k (some px) none)
                >>= (fun acc => n2pObjLoop ctx strict f fr acc)) := rfl
        rw [e, hn2p f hx, except_bind_ok,
          obj_step ctx strict hgmO hOP hSP (fldProps done) k w1 hfresh, except_bind_ok]
        rw [show fldProps done ++ [(k, PropAttr.plain w1)] = fldProps (done ++ [(k, w1)]) from by
          rw [fldProps_append]; rfl]
        have hIH := ih qr (done ++ [(k, w1)]) f htail hr (by
          simp only [List.map_cons] at hnd
          rw [List.append_cons] at hnd
          simp only [List.map_append, List.map_cons, List.map_nil]
          exact hnd)
        rw [hIH, List.append_assoc]
        rfl

theorem p2nObjLoop_read (ctx : InterpCtx) :
    ∀ (flds cfs : List (String × JSValue)) (fuel : ℕ) (cycles : List InterpreterObject),
      List.Forall₂ (fun p q => p.1 = q.1 ∧ P2N ctx p.2 q.2) flds cfs →
      valListSize flds ≤ fuel →
      p2nObjLoop ctx cycles fuel (fldProps cfs) = .ok flds := by
  intro flds
  induction flds with
  | nil =>
    intro cfs fuel cycles hf2 _
    cases hf2
    cases fuel <;> rfl
  | cons p fr ih =>
    intro cfs fuel cycles hf2 hfuel
    obtain ⟨k, x⟩ := p
    cases cfs with
    | nil => cases hf2
    | cons q qr =>
      obtain ⟨k2, w1⟩ := q
      have hpair := (List.forall₂_cons.mp hf2).1
      have htail := (List.forall₂_cons.mp hf2).2
      have hk2 : k = k2 := hpair.1
      subst hk2
      have hp2n : P2N ctx x w1 := hpair.2
      cases fuel with
      | zero =>
        exfalso
        have h1 : jsSize x + valListSize fr + 1 ≤ 0 := hfuel
        omega
      | succ f =>
        have h1 : jsSize x + valListSize fr + 1 ≤ f + 1 := hfuel
        have hx : jsSize x ≤ f := by omega
        have hr : valListSize fr ≤ f := by omega
        have e2 : p2nObjLoop ctx cycles (f + 1) ((k, PropAttr.plain w1) :: fldProps qr) =
            (pseudoToNative ctx f cycles w1) >>= (fun nv =>
              (p2nObjLoop ctx cycles f (fldProps qr)) >>= (fun tail =>
                pure ((k, nv) :: tail))) := rfl
        rw [show fldProps ((k, w1) :: qr) = (k, PropAttr.plain w1) :: fldProps qr from rfl, e2,
          hp2n f cycles hx, except_bind_ok, ih qr f cycles htail hr, except_bind_ok]
        rfl

/-- C1: for every cycle-free JSON-serializable host value, `nativeToPseudo`
followed by `pseudoToNative` reproduces the value exactly — primitives pass
through unchanged, and arrays and plain objects come back with the same
indices, keys and recursively equal values — at every sufficient fuel and
along every cycle path. -/
theorem c1_round_trip (ctx : InterpCtx) (strict : Bool) (v : JSValue)
    (hctx : wfCtx ctx = true) (hv : IsJson v) :
    ∃ w, N2P ctx strict v w ∧ P2N ctx v w := by
  obtain ⟨hOP, hFP, hAP, hSP, hNP, hBP, hRP, hDP, hEP, hAF, hgmO, hgmA⟩ := wfCtx_parts ctx hctx
  induction hv with
  | null =>
    exact ⟨.jsNull, fun fuel _ => by cases fuel <;> rfl,
      fun fuel cycles _ => by cases fuel <;> rfl⟩
  | bool b =>
    exact ⟨.boolean b, fun fuel _ => by cases fuel <;> rfl,
      fun fuel cycles _ => by cases fuel <;> rfl⟩
  | num q =>
    exact ⟨.number (.rat q), fun fuel _ => by cases fuel <;> rfl,
      fun fuel cycles _ => by cases fuel <;> rfl⟩
  | str s =>
    exact ⟨.string s, fun fuel _ => by cases fuel <;> rfl,
      fun fuel cycles _ => by cases fuel <;> rfl⟩
  | arr elems hlen helems IH =>
    obtain ⟨ws2, hf2⟩ := forall_mem_exists_forall2 elems IH
    have hN := List.Forall₂.imp (fun {a b} h => h.1) hf2
    have hP := List.Forall₂.imp (fun {a b} h => h.2) hf2
    have hsz : jsSize (.hobj (.array (elems.map some))) =
        optListSize (elems.map some) + 2 := rfl
    have hisaStr : isa ctx (.iobj (arrState ctx elems.length ws2)) ctx.STRING_PROTO = false := by
      rw [isa_fresh_proto ctx (arrState ctx elems.length ws2) ctx.STRING_PROTO 3
        (tag_of_chainTagsObj _ _ _ hSP) rfl]
      rw [show (arrState ctx elems.length ws2).proto = some ctx.ARRAY_PROTO from rfl]
      rw [show chainTags (some ctx.ARRAY_PROTO) = chainTagsObj ctx.ARRAY_PROTO from rfl, hAP]
      rfl
    refine ⟨.iobj (arrState ctx elems.length ws2), ?_, ?_⟩
    · intro fuel hf
      cases fuel with
      | zero => rw [hsz] at hf; omega
      | succ f =>
        have e : nativeToPseudo ctx strict (f + 1) (.hobj (.array (elems.map some))) =
            (createArray ctx strict) >>= (fun arr =>
              (n2pArrayLoop ctx strict f (elems.map some) 0 arr) >>= (fun arr2 =>
                pure (.iobj arr2))) := rfl
        rw [e, createArray_eq ctx strict hAP hSP hEP, except_bind_ok]
        have hb := n2pArrayLoop_build ctx strict hgmA hAP hSP elems ws2 [] f hN
          (by rw [hsz] at hf; omega) (by simpa using hlen)
        simp only [List.length_nil] at hb
        rw [hb, except_bind_ok, List.nil_append,
          show (0 : ℕ) + elems.length = elems.length from by omega]
        rfl
    · intro fuel2 cycles hfsz
      cases fuel2 with
      | zero => rw [hsz] at hfsz; omega
      | succ f2 =>
        have hisaRe : isa ctx (.iobj (arrState ctx elems.length ws2))
            ctx.REGEXP_PROTO = false := by
          rw [isa_fresh_proto ctx (arrState ctx elems.length ws2) ctx.REGEXP_PROTO 6
            (tag_of_chainTagsObj _ _ _ hRP) rfl]
          rw [show (arrState ctx elems.length ws2).proto = some ctx.ARRAY_PROTO from rfl]
          rw [show chainTags (some ctx.ARRAY_PROTO) = chainTagsObj ctx.ARRAY_PROTO from rfl, hAP]
          rfl
        have hisaDate : isa ctx (.iobj (arrState ctx elems.length ws2))
            ctx.DATE_PROTO = false := by
          rw [isa_fresh_proto ctx (arrState ctx elems.length ws2) ctx.DATE_PROTO 7
            (tag_of_chainTagsObj _ _ _ hDP) rfl]
          rw [show (arrState ctx elems.length ws2).proto = some ctx.ARRAY_PROTO from rfl]
          rw [show chainTags (some ctx.ARRAY_PROTO) = chainTagsObj ctx.ARRAY_PROTO from rfl, hAP]
          rfl
        have hisaArr : isa ctx (.iobj (arrState ctx elems.length ws2))
            ctx.ARRAY_PROTO = true := by
          rw [isa_fresh_proto ctx (arrState ctx elems.length ws2) ctx.ARRAY_PROTO 2
            (tag_of_chainTagsObj _ _ _ hAP) rfl]
          rw [show (arrState ctx elems.length ws2).proto = some ctx.ARRAY_PROTO from rfl]
          rw [show chainTags (some ctx.ARRAY_PROTO) = chainTagsObj ctx.ARRAY_PROTO from rfl, hAP]
          rfl
        have hany : cycles.any (objSame (arrState ctx elems.length ws2)) = false :=
          any_objSame_none (arrState ctx elems.length ws2) rfl cycles
        have hlenlk : alookup (arrState ctx elems.length ws2).properties "length" =
            some (PropAttr.mk (.number (.rat elems.length)) true false false false) := by
          rw [show (arrState ctx elems.length ws2).properties =
            ("length", PropAttr.mk (.number (.rat elems.length)) true false false false) ::
              idxProps 0 ws2 from rfl, alookup_cons, if_pos rfl]
        have hgp : getProperty ctx (.iobj (arrState ctx elems.length ws2)) "length" =
            .ok (PropAttr.mk (.number (.rat elems.length)) true false false false).value :=
          getProperty_own ctx _ "length" _ hisaStr hlenlk rfl
        have e : pseudoToNative ctx (f2 + 1) cycles (.iobj (arrState ctx elems.length ws2)) =
            (if isa ctx (.iobj (arrState ctx elems.length ws2)) ctx.REGEXP_PROTO then
              match (arrState ctx elems.length ws2).data with
              | some (.regexp s f li) => .ok (.hobj (.regexp s f li))
              | _ => .error (.host "Cannot read properties of the data slot")
            else if isa ctx (.iobj (arrState ctx elems.length ws2)) ctx.DATE_PROTO then
              match (arrState ctx elems.length ws2).data with
              | some (.date ms) => .ok (.hobj (.date ms))
              | _ => .error (.host "Cannot read properties of the data slot")
            else if cycles.any (objSame (arrState ctx elems.length ws2)) then
              .ok .undefined
            else if isa ctx (.iobj (arrState ctx elems.length ws2)) ctx.ARRAY_PROTO then
              match getProperty ctx (.iobj (arrState ctx elems.length ws2)) "length" with
              | .thrown er => .error er
              | .getterCall _ => .error (.host "Getter not supported in that context")
              | .ok lenV =>
                (p2nArrayLoop ctx (cycles ++ [arrState ctx elems.length ws2])
                  (arrState ctx elems.length ws2) f2 (loopCount (jsToNumber lenV)) 0)
                  >>= (fun entries => pure (.hobj (.array (trimTrailingHoles entries))))
            else
              (p2nObjLoop ctx (cycles ++ [arrState ctx elems.length ws2]) f2
                (arrState ctx elems.length ws2).properties)
                >>= (fun fields => pure (.hobj (.plain fields)))) := rfl
        rw [e, if_neg (by simp [hisaRe]), if_neg (by simp [hisaDate]),
          if_neg (by simp [hany]), if_pos hisaArr, hgp]
        simp only [PropAttr.value_mk]
        rw [show jsToNumber (.number (.rat elems.length)) = .rat elems.length from rfl,
          loopCount_natCast]
        rw [p2nArrayLoop_read ctx (arrState ctx elems.length ws2) hisaStr rfl elems ws2 0 f2
          (cycles ++ [arrState ctx elems.length ws2]) hP (by rw [hsz] at hfsz; omega)
          (fun t ht => by
            rw [show (arrState ctx elems.length ws2).properties =
              ("length", PropAttr.mk (.number (.rat elems.length)) true false false false) ::
                idxProps 0 ws2 from rfl]
            rw [alookup_cons, if_neg (natToStr_ne_length (0 + t)),
              alookup_idxProps_get 0 ws2 t ht]),
          except_bind_ok, trimTrailingHoles_all_some]
        rfl
  | obj fields hnd hflds IH =>
    have hex : ∀ p ∈ fields, ∃ q : String × JSValue, p.1 = q.1 ∧
        (N2P ctx strict p.2 q.2 ∧ P2N ctx p.2 q.2) := by
      intro p hp
      obtain ⟨w, hw⟩ := IH p hp
      exact ⟨(p.1, w), rfl, hw⟩
    obtain ⟨cfs, hf2⟩ := forall_mem_exists_forall2 fields hex
    have hN := List.Forall₂.imp (fun {a b} h => And.intro h.1 h.2.1) hf2
    have hP := List.Forall₂.imp (fun {a b} h => And.intro h.1 h.2.2) hf2
    have hsz : jsSize (.hobj (.plain fields)) = valListSize fields + 2 := rfl
    refine ⟨.iobj (objState ctx (fldProps cfs)), ?_, ?_⟩
    · intro fuel hf
      cases fuel with
      | zero => rw [hsz] at hf; omega
      | succ f =>
        have hisaErr : isa ctx
            (.iobj (.mk none none [] [] [] (some ctx.OBJECT_PROTO) false false none none))
            ctx.ERROR_PROTO = false := by
          rw [isa_fresh_proto ctx
            (.mk none none [] [] [] (some ctx.OBJECT_PROTO) false false none none)
            ctx.ERROR_PROTO 8 (tag_of_chainTagsObj _ _ _ hEP) rfl]
          simp only [InterpreterObject.proto_mk]
          rw [show chainTags (some ctx.OBJECT_PROTO) = chainTagsObj ctx.OBJECT_PROTO from rfl,
            hOP]
          rfl
        have hcop : createObjectProto ctx (some ctx.OBJECT_PROTO) =
            .mk none none [] [] [] (some ctx.OBJECT_PROTO) false false none none := by
          simp [createObjectProto, hisaErr]
        have e : nativeToPseudo ctx strict (f + 1) (.hobj (.plain fields)) =
            (n2pObjLoop ctx strict f fields (createObjectProto ctx (some ctx.OBJECT_PROTO)))
              >>= (fun o2 => pure (.iobj o2)) := rfl
        rw [e, hcop]
        rw [show (InterpreterObject.mk none none [] [] [] (some ctx.OBJECT_PROTO)
          false false none none) = objState ctx (fldProps []) from rfl]
        rw [n2pObjLoop_build ctx strict hgmO hOP hSP fields cfs [] f hN
          (by rw [hsz] at hf; omega) (by simpa using hnd), except_bind_ok]
        rfl
    · intro fuel2 cycles hfsz
      cases fuel2 with
      | zero => rw [hsz] at hfsz; omega
      | succ f2 =>
        have hisaRe : isa ctx (.iobj (objState ctx (fldProps cfs)))
            ctx.REGEXP_PROTO = false := by
          rw [isa_fresh_proto ctx (objState ctx (fldProps cfs)) ctx.REGEXP_PROTO 6
            (tag_of_chainTagsObj _ _ _ hRP) rfl]
          rw [show (objState ctx (fldProps cfs)).proto = some ctx.OBJECT_PROTO from rfl]
          rw [show chainTags (some ctx.OBJECT_PROTO) = chainTagsObj ctx.OBJECT_PROTO from rfl,
            hOP]
          rfl
        have hisaDate : isa ctx (.iobj (objState ctx (fldProps cfs)))
            ctx.DATE_PROTO = false := by
          rw [isa_fresh_proto ctx (objState ctx (fldProps cfs)) ctx.DATE_PROTO 7
            (tag_of_chainTagsObj _ _ _ hDP) rfl]
          rw [show (objState ctx (fldProps cfs)).proto = some ctx.OBJECT_PROTO from rfl]
          rw [show chainTags (some ctx.OBJECT_PROTO) = chainTagsObj ctx.OBJECT_PROTO from rfl,
            hOP]
          rfl
        have hisaArr : isa ctx (.iobj (objState ctx (fldProps cfs)))
            ctx.ARRAY_PROTO = false := by
          rw [isa_fresh_proto ctx (objState ctx (fldProps cfs)) ctx.ARRAY_PROTO 2
            (tag_of_chainTagsObj _ _ _ hAP) rfl]
          rw [show (objState ctx (fldProps cfs)).proto = some ctx.OBJECT_PROTO from rfl]
          rw [show chainTags (some ctx.OBJECT_PROTO) = chainTagsObj ctx.OBJECT_PROTO from rfl,
            hOP]
          rfl
        have hany : cycles.any (objSame (objState ctx (fldProps cfs))) = false :=
          any_objSame_none (objState ctx (fldProps cfs)) rfl cycles
        have e : pseudoToNative ctx (f2 + 1) cycles (.iobj (objState ctx (fldProps cfs))) =
            (if isa ctx (.iobj (objState ctx (fldProps cfs))) ctx.REGEXP_PROTO then
              match (objState ctx (fldProps cfs)).data with
              | some (.regexp s f li) => .ok (.hobj (.regexp s f li))
              | _ => .error (.host "Cannot read properties of the data slot")
            else if isa ctx (.iobj (objState ctx (fldProps cfs))) ctx.DATE_PROTO then
              match (objState ctx (fldProps cfs)).data with
              | some (.date ms) => .ok (.hobj (.date ms))
              | _ => .error (.host "Cannot read properties of the data slot")
            else if cycles.any (objSame (objState ctx (fldProps cfs))) then
              .ok .undefined
            else if isa ctx (.iobj (objState ctx (fldProps cfs))) ctx.ARRAY_PROTO then
              match getProperty ctx (.iobj (objState ctx (fldProps cfs))) "length" with
              | .thrown er => .error er
              | .getterCall _ => .error (.host "Getter not supported in that context")
              | .ok lenV =>
                (p2nArrayLoop ctx (cycles ++ [objState ctx (fldProps cfs)])
                  (objState ctx (fldProps cfs)) f2 (loopCount (jsToNumber lenV)) 0)
                  >>= (fun entries => pure (.hobj (.array (trimTrailingHoles entries))))
            else
              (p2nObjLoop ctx (cycles ++ [objState ctx (fldProps cfs)]) f2
                (objState ctx (fldProps cfs)).properties)
                >>= (fun fields2 => pure (.hobj (.plain fields2)))) := rfl
        rw [e, if_neg (by simp [hisaRe]), if_neg (by simp [hisaDate]),
          if_neg (by simp [hany]), if_neg (by simp [hisaArr])]
        rw [show (objState ctx (fldProps cfs)).properties = fldProps cfs from rfl]
        rw [p2nObjLoop_read ctx fields cfs f2 (cycles ++ [objState ctx (fldProps cfs)]) hP
          (by rw [hsz] at hfsz; omega), except_bind_ok]
        rfl

/-- Witness: a one-field plain object round-trips exactly. -/
theorem c1_round_trip_witness :
    ∃ w, N2P defaultCtx false (.hobj (.plain [("a", .jsNull)])) w ∧
      P2N defaultCtx (.hobj (.plain [("a", .jsNull)])) w :=
  c1_round_trip defaultCtx false (.hobj (.plain [("a", .jsNull)])) rfl
    (IsJson.obj [("a", .jsNull)] (by simp) (fun p hp => by
      simp only [List.mem_singleton] at hp
      subst hp
      exact IsJson.null))

end ESInterpreter
